import Mathlib

/-!
Verification of the Backpacking-Assistant-Agent backend core.

This file gives a shallow embedding, in Lean 4, of the job registry
(`apps/api/services/job_service.py`), the itinerary generation and
modification pipelines (`apps/api/routers/itinerary.py` and
`apps/api/services/agents/sub_agents/itinerary_agent.py`), the task merge
step (`task_agent.py`), the vaccine keyword extraction (`vaccine_agent.py`)
and the accommodation recommendation parser (`accommodation_agent.py`),
and proves or refutes the behavioural claims stated about them.

Modelling conventions, used consistently below:
* Python `str` is modelled by `String` or `List Char` (the latter where we
  reason inductively about scans); Python string methods (`split`, `strip`,
  `lower`, `in`) are re-implemented on `List Char` with the same semantics.
* Calendar dates are modelled by integer day numbers: `datetime.fromisoformat`
  of the stored ISO date becomes an `Int` field, and `(end - start).days`
  becomes plain subtraction.  The rendering of a date back to text
  (`strftime`) is modelled by `toString` of the day number; no claim depends
  on the textual date format.
* External services (the LLM, the research API, the trips table) are
  modelled as oracle fields of an environment record: an `Except String α`
  result models a call that either returns a value or raises an exception
  carrying a message.
* JSON values are modelled by an inductive `Json` type and `json.loads` by
  an executable recursive-descent parser; JSON numbers are restricted to
  integers (no claim involves fractional literals).
-/

/-! ## Job registry (`services/job_service.py`) -/

/-- Job lifecycle states, as written by the pipelines
(`pending`, `processing`, `completed`, `failed`). -/
inductive JobStatus where
  | pending
  | processing
  | completed
  | failed
deriving DecidableEq, Repr

/-- The kind-specific result payloads the two itinerary pipelines store:
`{"num_days": n}` on generation success, `{"items_count": n}` on
modification success. -/
inductive JobResult where
  | numDays (n : Int)
  | itemsCount (n : Nat)
deriving DecidableEq, Repr

/-- One record of `JobService._jobs`.  `created_at` / `updated_at` are
modelled as abstract clock ticks (the code stores ISO timestamps). -/
structure Job where
  trip_id : String
  job_type : String
  status : JobStatus
  progress : Nat
  message : Option String
  result : Option JobResult
  error : Option String
  created_at : Nat
  updated_at : Nat
deriving DecidableEq, Repr

/-- Dictionary lookup on the in-memory job map `self._jobs`
(`get_job_status`, lines 109-129: returns the record, or `None` when the
id is unknown). -/
def lookup_job : List (String × Job) → String → Option Job
  | [], _ => none
  | (k, v) :: rest, id => if k = id then some v else lookup_job rest id

/-- `JobService.create_job` (lines 27-65): inserts a fresh record with
status `pending`, progress 0, message "Job created", empty result and
error.  The generated uuid is passed in as `job_id`. -/
def create_job (jobs : List (String × Job)) (job_id trip_id job_type : String)
    (now : Nat) : List (String × Job) :=
  (job_id,
    { trip_id := trip_id
      job_type := job_type
      status := .pending
      progress := 0
      message := some "Job created"
      result := none
      error := none
      created_at := now
      updated_at := now }) :: jobs

/-- Applies `f` to the record stored under `job_id`, leaving every other
entry unchanged (the effect of `self._jobs[job_id].update({...})` on the
dictionary). -/
def update_entries (job_id : String) (f : Job → Job) :
    List (String × Job) → List (String × Job)
  | [] => []
  | (k, v) :: rest =>
      (if k = job_id then (k, f v) else (k, v)) :: update_entries job_id f rest

/-- `JobService.update_job_status` (lines 67-107): a no-op when the id is
unknown (logged warning, never raises); otherwise overwrites the six
mutable fields `status, progress, message, result, error, updated_at` at
once via `dict.update`. -/
def update_job_status (jobs : List (String × Job)) (job_id : String)
    (status : JobStatus) (progress : Nat) (message : Option String)
    (result : Option JobResult) (error : Option String) (now : Nat) :
    List (String × Job) :=
  if (lookup_job jobs job_id).isNone then jobs
  else update_entries job_id
    (fun v => { v with
        status := status
        progress := progress
        message := message
        result := result
        error := error
        updated_at := now }) jobs

/-- In the Python signature the optional parameters default to
`progress=0, message=None, result=None, error=None`: a call that supplies
only `status` and `progress` passes `None` for the other three. -/
def update_job_status_progress_only (jobs : List (String × Job))
    (job_id : String) (status : JobStatus) (progress : Nat) (now : Nat) :
    List (String × Job) :=
  update_job_status jobs job_id status progress none none none now

theorem lookup_update_entries (jobs : List (String × Job)) (id : String)
    (f : Job → Job) :
    lookup_job (update_entries id f jobs) id
      = (lookup_job jobs id).map f := by
  induction jobs with
  | nil => rfl
  | cons kv rest ih =>
    obtain ⟨k, v⟩ := kv
    by_cases hk : k = id
    · subst hk
      rw [update_entries, if_pos rfl]
      simp [lookup_job]
    · rw [update_entries, if_neg hk]
      simp [lookup_job, hk, ih]

theorem lookup_update_entries_ne (jobs : List (String × Job)) (id tgt : String)
    (f : Job → Job) (hne : id ≠ tgt) :
    lookup_job (update_entries tgt f jobs) id = lookup_job jobs id := by
  induction jobs with
  | nil => rfl
  | cons kv rest ih =>
    obtain ⟨k, v⟩ := kv
    by_cases hk : k = tgt
    · subst hk
      rw [update_entries, if_pos rfl]
      simp [lookup_job, Ne.symm hne, ih]
    · rw [update_entries, if_neg hk]
      simp [lookup_job, ih]

/-- On a known id, `update_job_status` rewrites exactly the six mutable
fields and nothing else. -/
theorem lookup_update_self (jobs : List (String × Job)) (id : String)
    (st : JobStatus) (p : Nat) (m : Option String) (r : Option JobResult)
    (e : Option String) (now : Nat) :
    lookup_job (update_job_status jobs id st p m r e now) id
      = (lookup_job jobs id).map fun j =>
          { j with status := st, progress := p, message := m, result := r,
                   error := e, updated_at := now } := by
  unfold update_job_status
  cases h : lookup_job jobs id with
  | none => simp [h]
  | some j => simp [h, lookup_update_entries]

/-- `update_job_status` on one id leaves every other id untouched. -/
theorem lookup_update_other (jobs : List (String × Job)) (id tgt : String)
    (st : JobStatus) (p : Nat) (m : Option String) (r : Option JobResult)
    (e : Option String) (now : Nat) (hne : id ≠ tgt) :
    lookup_job (update_job_status jobs tgt st p m r e now) id
      = lookup_job jobs id := by
  unfold update_job_status
  cases h : lookup_job jobs tgt with
  | none => simp [h]
  | some j => simp [h, lookup_update_entries_ne _ _ _ _ hne]

/-- C10: every registry update on a known job id overwrites all six mutable
fields at once; a call supplying only `status` and `progress` (the Python
defaults for the remaining parameters) resets `message`, `result` and
`error` to `None` and does not preserve the previous values, while the
identity fields (`trip_id`, `job_type`, `created_at`) are kept. -/
theorem C10_update_overwrites_all_fields (jobs : List (String × Job))
    (id : String) (j : Job) (st : JobStatus) (p : Nat) (now : Nat)
    (h : lookup_job jobs id = some j) :
    lookup_job (update_job_status_progress_only jobs id st p now) id
      = some { trip_id := j.trip_id, job_type := j.job_type, status := st,
               progress := p, message := none, result := none, error := none,
               created_at := j.created_at, updated_at := now } := by
  unfold update_job_status_progress_only
  rw [lookup_update_self, h]
  rfl

/-- A sample record holding a message, a result and an error. -/
def c10_job : Job :=
  { trip_id := "t1", job_type := "itinerary_generation",
    status := .completed, progress := 100, message := some "done",
    result := some (.numDays 3), error := some "old", created_at := 0,
    updated_at := 7 }

/-- Witness for C10: a job whose record holds a message, a result and an
error loses all three on a progress-only update. -/
theorem C10_update_overwrites_all_fields_witness :
    lookup_job
      (update_job_status_progress_only [("j1", c10_job)] "j1" .processing 42 9)
      "j1"
      = some { trip_id := "t1", job_type := "itinerary_generation",
               status := .processing, progress := 42, message := none,
               result := none, error := none, created_at := 0,
               updated_at := 9 } :=
  C10_update_overwrites_all_fields [("j1", c10_job)] "j1" c10_job .processing
    42 9 (by decide)

/-- A registry state in which job `j1` has reached the terminal status
`completed`. -/
def c5_jobs_terminal : List (String × Job) :=
  update_job_status
    (create_job [] "j1" "t1" "itinerary_generation" 0)
    "j1" .completed 100 (some "done") (some (.numDays 3)) none 1

/-- The same registry after one further `update` call on the same id. -/
def c5_jobs_after : List (String × Job) :=
  update_job_status c5_jobs_terminal "j1" .processing 50 (some "again")
    none none 2

/-- Counterexample to C5: the registry has no terminal-state guard.  After
job `j1` reaches the terminal status `completed`, a further `update` call
on the same id changes the status back to `processing`, so a later `get`
does not return the terminal status. -/
theorem C5_counterexample :
    (lookup_job c5_jobs_terminal "j1").map Job.status = some .completed
    ∧ (lookup_job c5_jobs_after "j1").map Job.status = some .processing
    ∧ (some JobStatus.processing ≠ some JobStatus.completed) := by
  refine ⟨by decide, by decide, by decide⟩

/-- C5 (amended): once a job has a terminal status, every later `get`
returns that same status as long as no further `update` call targets that
id: updates on other ids never affect it.  (The registry itself does not
enforce terminal immutability: an update on the same id overwrites the
status, as the counterexample shows.) -/
theorem C5_terminal_frame (jobs : List (String × Job)) (id tgt : String)
    (j : Job) (st : JobStatus) (p : Nat) (m : Option String)
    (r : Option JobResult) (e : Option String) (now : Nat)
    (hj : lookup_job jobs id = some j)
    (hterm : j.status = .completed ∨ j.status = .failed)
    (hne : id ≠ tgt) :
    lookup_job (update_job_status jobs tgt st p m r e now) id = some j
    ∧ ((lookup_job (update_job_status jobs tgt st p m r e now) id).map
        Job.status = some j.status) := by
  constructor
  · rw [lookup_update_other _ _ _ _ _ _ _ _ _ hne, hj]
  · rw [lookup_update_other _ _ _ _ _ _ _ _ _ hne, hj]
    rfl

/-- The terminal record held under `j1` in `c5_jobs_terminal`. -/
def c5_job_terminal : Job :=
  { trip_id := "t1", job_type := "itinerary_generation",
    status := .completed, progress := 100, message := some "done",
    result := some (.numDays 3), error := none, created_at := 0,
    updated_at := 1 }

/-- Witness for the amended C5: a `completed` job survives an update to a
different job id with its terminal status intact. -/
theorem C5_terminal_frame_witness :
    lookup_job
      (update_job_status c5_jobs_terminal "j2" .processing 10 none none
        none 5) "j1" = some c5_job_terminal :=
  (C5_terminal_frame c5_jobs_terminal "j1" "j2" c5_job_terminal .processing
    10 none none none 5 (by decide) (Or.inl (by decide)) (by decide)).1

/-! ## String utilities

Python string operations, re-implemented on `List Char` with the same
semantics: `strip` (`trimL`), substring membership (`containsL`),
left-to-right search for the first occurrence of a separator (`breakOn`,
the engine behind `str.split`), and `lower`. -/

/-- The whitespace characters relevant to the texts handled here
(Python `str.strip` / JSON whitespace). -/
def isWS (c : Char) : Bool :=
  c = ' ' || c = '\n' || c = '\t' || c = '\r'

/-- Removes trailing characters satisfying `p`. -/
def dropEndWhile (p : Char → Bool) (l : List Char) : List Char :=
  (l.reverse.dropWhile p).reverse

/-- Python `str.strip()`: removes leading and trailing whitespace. -/
def trimL (l : List Char) : List Char :=
  dropEndWhile isWS (l.dropWhile isWS)

/-- Splits at the first occurrence of `sep` (non-empty): returns the text
before the occurrence and the text after it, or `none` when `sep` does not
occur.  This is the search underlying Python `sep in s` and
`s.split(sep)`. -/
def breakOn (sep : List Char) : List Char → Option (List Char × List Char)
  | [] => none
  | c :: rest =>
    if sep.isPrefixOf (c :: rest) then some ([], (c :: rest).drop sep.length)
    else match breakOn sep rest with
      | none => none
      | some (a, b) => some (c :: a, b)

/-- Python `sep in s`. -/
def containsL (sep cs : List Char) : Bool := (breakOn sep cs).isSome

/-- The text before the first occurrence of `sep` (all of `cs` when `sep`
does not occur): `s.split(sep)[0]`. -/
def takeBefore (sep cs : List Char) : List Char :=
  match breakOn sep cs with
  | some (pre, _) => pre
  | none => cs

/-- Python `str.lower()` (ASCII). -/
def lowerL (l : List Char) : List Char := l.map Char.toLower

theorem isPrefixOf_append_self (l r : List Char) :
    l.isPrefixOf (l ++ r) = true := by
  induction l with
  | nil => simp
  | cons c cs ih => simpa using ih

theorem breakOn_at_start (sep rest : List Char) (hne : sep ≠ []) :
    breakOn sep (sep ++ rest) = some ([], rest) := by
  cases sep with
  | nil => exact absurd rfl hne
  | cons s0 stl =>
    have hp : (s0 :: stl).isPrefixOf (s0 :: (stl ++ rest)) = true := by
      rw [← List.cons_append]
      exact isPrefixOf_append_self (s0 :: stl) rest
    rw [List.cons_append, breakOn, if_pos hp, ← List.cons_append,
      List.drop_left]

theorem breakOn_cons_of_ne (want : Char) (sep' : List Char) (c : Char)
    (rest : List Char) (hne : want ≠ c) :
    breakOn (want :: sep') (c :: rest)
      = (breakOn (want :: sep') rest).map fun p => (c :: p.1, p.2) := by
  have hpre : (want :: sep').isPrefixOf (c :: rest) = false := by
    rw [List.isPrefixOf_cons₂]
    simp [hne]
  rw [breakOn, hpre]
  simp only [Bool.false_eq_true, if_false]
  cases hb : breakOn (want :: sep') rest with
  | none => simp
  | some p => simp

theorem breakOn_append_left (want : Char) (sep' pre cs : List Char)
    (hmem : want ∉ pre) :
    breakOn (want :: sep') (pre ++ cs)
      = (breakOn (want :: sep') cs).map fun p => (pre ++ p.1, p.2) := by
  induction pre with
  | nil =>
    simp only [List.nil_append]
    cases hb : breakOn (want :: sep') cs with
    | none => simp
    | some p => simp
  | cons c pre' ih =>
    have hne : want ≠ c := fun he => hmem (he ▸ List.mem_cons_self c pre')
    rw [List.cons_append, breakOn_cons_of_ne _ _ _ _ hne,
      ih (fun hm => hmem (List.mem_cons_of_mem c hm))]
    cases hb : breakOn (want :: sep') cs with
    | none => simp
    | some p => simp

theorem breakOn_none_of_head_notMem (want : Char) (sep' cs : List Char)
    (hmem : want ∉ cs) :
    breakOn (want :: sep') cs = none := by
  induction cs with
  | nil => rfl
  | cons c rest ih =>
    have hne : want ≠ c := fun he => hmem (he ▸ List.mem_cons_self c rest)
    rw [breakOn_cons_of_ne _ _ _ _ hne,
      ih (fun hm => hmem (List.mem_cons_of_mem c hm))]
    rfl

theorem dropEndWhile_append_of_pos (p : Char → Bool) (l : List Char)
    (c : Char) (hc : p c = true) :
    dropEndWhile p (l ++ [c]) = dropEndWhile p l := by
  unfold dropEndWhile
  rw [List.reverse_append, List.reverse_singleton, List.singleton_append,
    List.dropWhile_cons_of_pos hc]

theorem trimL_cons_of_ws (c : Char) (l : List Char) (hc : isWS c = true) :
    trimL (c :: l) = trimL l := by
  unfold trimL
  rw [List.dropWhile_cons_of_pos hc]

theorem trimL_append_of_ws (l : List Char) (c : Char) (hc : isWS c = true) :
    trimL (l ++ [c]) = trimL l := by
  induction l with
  | nil =>
    unfold trimL
    simp [List.dropWhile, hc]
  | cons x l' ih =>
    by_cases hx : isWS x = true
    · rw [List.cons_append, trimL_cons_of_ws _ _ hx, ih,
        trimL_cons_of_ws _ _ hx]
    · unfold trimL
      rw [List.cons_append,
        List.dropWhile_cons_of_neg (by simpa using hx),
        List.dropWhile_cons_of_neg (by simpa using hx),
        ← List.cons_append, dropEndWhile_append_of_pos _ _ _ hc]

theorem trimL_eq_self (l : List Char)
    (h1 : ∀ c, l.head? = some c → isWS c = false)
    (h2 : ∀ c, l.getLast? = some c → isWS c = false) :
    trimL l = l := by
  cases l with
  | nil => rfl
  | cons x xs =>
    have hx : isWS x = false := h1 x rfl
    unfold trimL
    rw [List.dropWhile_cons_of_neg (by simp [hx])]
    unfold dropEndWhile
    cases hrev : (x :: xs).reverse with
    | nil => simpa using congrArg List.length hrev
    | cons c t =>
      have hcl : (x :: xs).getLast? = some c := by
        rw [List.getLast?_eq_head?_reverse, hrev]
        rfl
      have hc : isWS c = false := h2 c hcl
      rw [List.dropWhile_cons_of_neg (by simp [hc]), ← hrev,
        List.reverse_reverse]

theorem mem_trimL (l : List Char) (c : Char) (hc : c ∈ trimL l) : c ∈ l := by
  unfold trimL dropEndWhile at hc
  have h1 := List.dropWhile_subset (l := (l.dropWhile isWS).reverse) isWS
  have h2 := List.dropWhile_subset (l := l) isWS
  rw [List.mem_reverse] at hc
  have := h1 hc
  rw [List.mem_reverse] at this
  exact h2 this

/-! ## JSON

`json.loads` is modelled by an executable recursive-descent parser over
`List Char`.  JSON numbers are restricted to (optionally negated) integer
literals and string escapes to single-character escapes: every text any
claim evaluates falls inside this fragment. -/

/-- JSON values. -/
inductive Json where
  | null
  | bool (b : Bool)
  | num (n : Int)
  | str (s : String)
  | arr (elems : List Json)
  | obj (fields : List (String × Json))
deriving Repr

/-- Dictionary lookup, Python `d[k]` / `d.get(k)` on a parsed JSON
object. -/
def jget : List (String × Json) → String → Option Json
  | [], _ => none
  | (k, v) :: rest, want => if k = want then some v else jget rest want

/-- Python `k in d`. -/
def jhas (fields : List (String × Json)) (k : String) : Bool :=
  (jget fields k).isSome

def skipWS (cs : List Char) : List Char := cs.dropWhile isWS

/-- Body of a JSON string literal, after the opening quote; handles the
single-character escapes used by the texts under test. -/
def parseStringChars : Nat → List Char → Option (List Char × List Char)
  | 0, _ => none
  | _, [] => none
  | fuel + 1, c :: rest =>
    if c = '"' then some ([], rest)
    else if c = '\\' then
      match rest with
      | [] => none
      | e :: rest' =>
        let decoded : Char :=
          if e = 'n' then '\n' else if e = 't' then '\t' else e
        (parseStringChars fuel rest').map fun p => (decoded :: p.1, p.2)
    else (parseStringChars fuel rest).map fun p => (c :: p.1, p.2)

/-- A non-empty run of decimal digits, as a number. -/
def parseDigits (cs : List Char) : Option (Nat × List Char) :=
  let ds := cs.takeWhile Char.isDigit
  if ds.isEmpty then none
  else some (ds.foldl (fun a c => a * 10 + (c.toNat - 48)) 0, cs.drop ds.length)

mutual

def parseVal : Nat → List Char → Option (Json × List Char)
  | 0, _ => none
  | fuel + 1, cs =>
    match skipWS cs with
    | [] => none
    | 'n' :: rest =>
      if ("ull".toList).isPrefixOf rest then some (.null, rest.drop 3)
      else none
    | 't' :: rest =>
      if ("rue".toList).isPrefixOf rest then some (.bool true, rest.drop 3)
      else none
    | 'f' :: rest =>
      if ("alse".toList).isPrefixOf rest then some (.bool false, rest.drop 4)
      else none
    | '"' :: rest =>
      (parseStringChars (rest.length + 1) rest).map fun p =>
        (.str (String.mk p.1), p.2)
    | '[' :: rest =>
      match skipWS rest with
      | ']' :: r2 => some (.arr [], r2)
      | r => (parseElems fuel r).map fun p => (.arr p.1, p.2)
    | '{' :: rest =>
      match skipWS rest with
      | '}' :: r2 => some (.obj [], r2)
      | r => (parseFields fuel r).map fun p => (.obj p.1, p.2)
    | '-' :: rest =>
      (parseDigits rest).map fun p => (.num (-(p.1 : Int)), p.2)
    | cs' => (parseDigits cs').map fun p => (.num (p.1 : Int), p.2)

def parseElems : Nat → List Char → Option (List Json × List Char)
  | 0, _ => none
  | fuel + 1, cs =>
    match parseVal fuel cs with
    | none => none
    | some (v, r) =>
      match skipWS r with
      | ',' :: r2 => (parseElems fuel r2).map fun p => (v :: p.1, p.2)
      | ']' :: r2 => some ([v], r2)
      | _ => none

def parseFields : Nat → List Char → Option (List (String × Json) × List Char)
  | 0, _ => none
  | fuel + 1, cs =>
    match skipWS cs with
    | '"' :: rest =>
      match parseStringChars (rest.length + 1) rest with
      | none => none
      | some (k, r) =>
        match skipWS r with
        | ':' :: r2 =>
          match parseVal fuel r2 with
          | none => none
          | some (v, r3) =>
            match skipWS r3 with
            | ',' :: r4 =>
              (parseFields fuel r4).map fun p =>
                ((String.mk k, v) :: p.1, p.2)
            | '}' :: r4 => some ([(String.mk k, v)], r4)
            | _ => none
        | _ => none
    | _ => none

end

/-- `json.loads`: parses the whole text (allowing surrounding whitespace),
or fails. -/
def jsonParse (cs : List Char) : Option Json :=
  match parseVal (2 * cs.length + 2) cs with
  | some (v, r) => if (skipWS r).isEmpty then some v else none
  | none => none

/-! ## Trips and itinerary items

`Trip` models the row read from the `trips` table.  Only the fields the
pipelines compute with are carried: `destinations`, and the start/end
dates as integer day numbers (plus the raw start-date string, which
`_parse_itinerary_response` uses as a default).  The remaining trip fields
(budget, preferences, traveller counts, transportation) only feed prompt
text, which the LLM oracle abstracts away. -/

structure Trip where
  destinations : List String
  start_day : Int
  end_day : Int
  start_date : String
deriving Repr

/-- `(end_date - start_date).days + 1` (`routers/itinerary.py` line 80). -/
def num_days (t : Trip) : Int := t.end_day - t.start_day + 1

/-- Abstract rendering of the calendar date of integer day `n`
(`current_date.strftime("%Y-%m-%d")`); no claim depends on the format. -/
def day_date (n : Int) : String := toString n

/-- A parsed JSON object (Python dict). -/
def JObj : Type := List (String × Json)

/-- Python dict assignment `d[k] = v`: replaces in place, or appends a new
key. -/
def jset : JObj → String → Json → JObj
  | [], k, v => [(k, v)]
  | (k', v') :: rest, k, v =>
    if k' = k then (k', v) :: rest else (k', v') :: jset rest k v

/-- One row of the `itinerary_items` table, exactly the columns
`save_itinerary_items` builds (`job_service.py` lines 149-164): every
column is `item.get(...)` of the saved dict, with `cost` and `order_index`
defaulting to 0 and the rest to `None`. -/
structure DbItem where
  trip_id : String
  day_number : Option Json
  date : Option Json
  start_time : Option Json
  end_time : Option Json
  title : Option Json
  description : Option Json
  location : Option Json
  item_type : Option Json
  cost : Json
  order_index : Json

/-- The row `save_itinerary_items` inserts for one item dict. -/
def to_db_item (tripId : String) (o : JObj) : DbItem :=
  { trip_id := tripId
    day_number := jget o "day_number"
    date := jget o "date"
    start_time := jget o "start_time"
    end_time := jget o "end_time"
    title := jget o "title"
    description := jget o "description"
    location := jget o "location"
    item_type := jget o "type"
    cost := (jget o "cost").getD (.num 0)
    order_index := (jget o "order_index").getD (.num 0) }

/-! ## Itinerary agent (`sub_agents/itinerary_agent.py`) -/

def fence_json_toks : List Char := "```json".toList

def fence_toks : List Char := "```".toList

/-- The fence-stripping step of `_parse_itinerary_response` (lines
244-251): strip the text; if it contains a fenced block, keep the text
between the opening fence and the next plain fence.  (Python computes
`split("```json")[1].split("```")[0]`; taking everything after the first
occurrence and cutting at the next "```" yields the same string, because
"```json" itself starts with "```".) -/
def strip_fences (cs : List Char) : List Char :=
  let cleaned := trimL cs
  if containsL fence_json_toks cleaned then
    match breakOn fence_json_toks cleaned with
    | some (_, after) => trimL (takeBefore fence_toks after)
    | none => cleaned
  else if containsL fence_toks cleaned then
    match breakOn fence_toks cleaned with
    | some (_, after) => trimL (takeBefore fence_toks after)
    | none => cleaned
  else cleaned

/-- The validated item `_parse_itinerary_response` builds for the `idx`-th
parsed element (lines 263-274): a fresh dict with exactly these ten keys,
defaults applied for missing ones. -/
def validated_item (trip : Trip) (fields : JObj) (idx : Nat) : JObj :=
  [ ("day_number", (jget fields "day_number").getD (.num 1)),
    ("date", (jget fields "date").getD (.str trip.start_date)),
    ("start_time", (jget fields "start_time").getD (.str "09:00:00")),
    ("end_time", (jget fields "end_time").getD (.str "10:00:00")),
    ("title", (jget fields "title").getD (.str "Activity")),
    ("description", (jget fields "description").getD (.str "")),
    ("location", (jget fields "location").getD (.str "")),
    ("type", (jget fields "type").getD (.str "activity")),
    ("cost", (jget fields "cost").getD (.num 0)),
    ("order_index", (jget fields "order_index").getD (.num idx)) ]

/-- The validation loop of `_parse_itinerary_response`: builds the
validated list, raising (`AttributeError`) at the first non-dict
element. -/
def validate_itinerary_items (trip : Trip) : Nat → List Json →
    Except String (List JObj)
  | _, [] => .ok []
  | idx, j :: rest =>
    match j with
    | .obj fields =>
      match validate_itinerary_items trip (idx + 1) rest with
      | .ok tl => .ok (validated_item trip fields idx :: tl)
      | .error e => .error e
    | _ => .error "AttributeError"

/-- The outcome of `_parse_itinerary_response` after `json.loads`: a parse
failure and a non-list value both raise; a list is validated
element-wise. -/
def parse_itinerary_of_json (trip : Trip) :
    Option Json → Except String (List JObj)
  | none => .error "json.JSONDecodeError"
  | some (.arr items) => validate_itinerary_items trip 0 items
  | some _ => .error "ValueError: Response is not a list"

/-- `ItineraryAgent._parse_itinerary_response` (lines 242-282): strip
fences, `json.loads`, require a list, validate each element.  Every
failure raises (the `except` clause at line 279 re-raises): there is no
bracket-slice retry in this parser. -/
def parse_itinerary_response (response_text : String) (trip : Trip) :
    Except String (List JObj) :=
  parse_itinerary_of_json trip (jsonParse (strip_fences response_text.toList))

/-- `ItineraryAgent.modify_itinerary` (lines 114-147): invoke the LLM and
parse; on ANY exception (transport failure or parse failure) return the
existing items unchanged (line 147, `# Return unchanged if error`).  The
`llm` argument is the oracle outcome of `self.model.invoke`. -/
def modify_itinerary (existing_items : List JObj) (_modification : String)
    (trip : Trip) (llm : Except String String) : List JObj :=
  match llm with
  | .error _ => existing_items
  | .ok txt =>
    match parse_itinerary_response txt trip with
    | .ok items => items
    | .error _ => existing_items

/-- The single whole-day fallback item `_get_fallback_day` builds for
first destination `d0` (lines 420-433). -/
def fallback_obj (d0 : String) (day : Nat) (date : String) : JObj :=
  [ ("day_number", .num day),
    ("date", .str date),
    ("start_time", .str "09:00:00"),
    ("end_time", .str "17:00:00"),
    ("title", .str ("Explore " ++ d0)),
    ("description", .str ("Spend the day exploring " ++ d0 ++
      " and its main attractions.")),
    ("location", .str d0),
    ("type", .str "activity"),
    ("cost", .num 0),
    ("order_index", .num 0) ]

/-- `ItineraryAgent._get_fallback_day` (lines 411-433): one whole-day item
for `destinations[0]`.  With an empty destination list the subscript
raises `IndexError` (which, raised from inside an `except` handler,
propagates out of `generate_single_day`). -/
def get_fallback_day (trip : Trip) (day : Nat) (date : String) :
    Except String (List JObj) :=
  match trip.destinations with
  | [] => .error "IndexError: list index out of range"
  | d0 :: _ => .ok [fallback_obj d0 day date]

/-- `re.sub(r'```(?:json)?\s*', '', text)` in `_parse_single_day_response`
(line 393): removes every fence marker together with the whitespace that
follows it. -/
def strip_all_fences : Nat → List Char → List Char
  | 0, cs => cs
  | _ + 1, [] => []
  | fuel + 1, c :: rest =>
    if fence_json_toks.isPrefixOf (c :: rest) then
      strip_all_fences fuel (((c :: rest).drop 7).dropWhile isWS)
    else if fence_toks.isPrefixOf (c :: rest) then
      strip_all_fences fuel (((c :: rest).drop 3).dropWhile isWS)
    else c :: strip_all_fences fuel rest

/-- The tagging loop of `_parse_single_day_response` (lines 400-403):
`item['day_number'] = day; item['date'] = date; item['order_index'] = i`.
Returns `none` when some element is not a dict (Python raises `TypeError`,
caught by the enclosing handler). -/
def enrich_day_items (day : Nat) (date : String) : Nat → List Json →
    Option (List JObj)
  | _, [] => some []
  | i, .obj fields :: rest =>
    (enrich_day_items day date (i + 1) rest).map fun tl =>
      jset (jset (jset fields "day_number" (.num day)) "date" (.str date))
        "order_index" (.num i) :: tl
  | _, _ => none

/-- The tail of `_parse_single_day_response`: a successfully tagged batch
is returned, a tagging failure falls back. -/
def parse_single_day_tagged (trip : Trip) (day : Nat) (date : String) :
    Option (List JObj) → Except String (List JObj)
  | some objs => .ok objs
  | none => get_fallback_day trip day date

/-- The outcome of `_parse_single_day_response` after `json.loads`:
anything but a list falls back, a list is tagged item by item. -/
def parse_single_day_of_json (trip : Trip) (day : Nat) (date : String) :
    Option Json → Except String (List JObj)
  | some (.arr items) =>
    parse_single_day_tagged trip day date (enrich_day_items day date 0 items)
  | _ => get_fallback_day trip day date

/-- `ItineraryAgent._parse_single_day_response` (lines 379-409): strip all
fence markers, strip, `json.loads`, tag each item; on any failure fall
back to `_get_fallback_day` (which itself raises when the destination
list is empty). -/
def parse_single_day_response (response_text : String) (trip : Trip)
    (day : Nat) (date : String) : Except String (List JObj) :=
  parse_single_day_of_json trip day date
    (jsonParse (trimL (strip_all_fences (response_text.toList.length + 1)
      response_text.toList)))

/-- `ItineraryAgent.generate_single_day` (lines 22-73): invoke the LLM for
one day and parse; if the invocation raises, substitute the fallback day.
`gen_response` is the oracle outcome of `self.model.invoke` for this day
(the rolling previous-days summary only alters the prompt, which the
oracle abstracts). -/
def generate_single_day (gen_response : Except String String) (trip : Trip)
    (day : Nat) : Except String (List JObj) :=
  match gen_response with
  | .ok txt =>
    parse_single_day_response txt trip day
      (day_date (trip.start_day + (day : Int) - 1))
  | .error _ =>
    get_fallback_day trip day (day_date (trip.start_day + (day : Int) - 1))

/-! ## Pipelines (`routers/itinerary.py`)

The pipeline state carries the job registry, the itinerary-items table
restricted to the trip under work, a log of the storage operations issued,
and the chronological list of `(status, progress)` pairs written through
`update_job_status`.  Storage reads/writes are assumed to succeed (the
claims under test only exercise LLM failures and missing trips). -/

/-- A storage write issued by a pipeline. -/
inductive DbOp where
  | insertItems (rows : List DbItem)
  | deleteItems (trip_id : String)

structure PipeState where
  job_id : String
  trip_id : String
  jobs : List (String × Job)
  clock : Nat
  db_items : List DbItem
  db_ops : List DbOp
  trace : List (JobStatus × Nat)

/-- One `await job_service.update_job_status(...)` call. -/
def pipe_update (s : PipeState) (st : JobStatus) (p : Nat)
    (m : Option String) (r : Option JobResult) (e : Option String) :
    PipeState :=
  { s with
    jobs := update_job_status s.jobs s.job_id st p m r e s.clock
    clock := s.clock + 1
    trace := s.trace ++ [(st, p)] }

/-- `job_service.save_itinerary_items`: batch insert of the given dicts. -/
def pipe_save_items (s : PipeState) (items : List JObj) : PipeState :=
  let rows := items.map (to_db_item s.trip_id)
  { s with
    db_items := s.db_items ++ rows
    db_ops := s.db_ops ++ [.insertItems rows] }

/-- `supabase.table("itinerary_items").delete().eq("trip_id", ...)`. -/
def pipe_delete_items (s : PipeState) : PipeState :=
  { s with db_items := [], db_ops := s.db_ops ++ [.deleteItems s.trip_id] }

/-- The environment of one generation run: the `trips` row (or not found)
and the per-day LLM outcome. -/
structure GenEnv where
  trip_row : Option Trip
  gen_response : Nat → Except String String

/-- The day loop of `_generate_itinerary_async` (lines 88-120).  Returns
the reached state plus the exception message, if one escaped.  (The
"progress before generating" update, which the source performs before the
`generate_single_day` call, is written inside both match branches here;
the two orders are identical because all steps are pure.) -/
def gen_loop (env : GenEnv) (trip : Trip) (numd : Nat) :
    List Nat → PipeState → PipeState × Option String
  | [], s => (s, none)
  | d :: ds, s =>
    match generate_single_day (env.gen_response d) trip d with
    | .error e =>
      (pipe_update s .processing (10 + (d - 1) * (80 / numd))
        (some s!"Generating Day {d} of {numd}") none none, some e)
    | .ok items =>
      gen_loop env trip numd ds
        (pipe_update
          (pipe_save_items
            (pipe_update s .processing (10 + (d - 1) * (80 / numd))
              (some s!"Generating Day {d} of {numd}") none none)
            items)
          .processing (10 + d * (80 / numd))
          (some s!"Day {d} of {numd} complete") none none)

/-- The tail of `_generate_itinerary_async`: the `completed` update on
loop success (lines 122-129), the `except` handler on an escaped exception
(lines 133-143, `progress=0`). -/
def finish_generation (nd : Int) (s2 : PipeState) :
    Option String → PipeState
  | some e =>
    pipe_update s2 .failed 0 (some "Failed to generate itinerary") none
      (some e)
  | none =>
    pipe_update s2 .completed 100 (some s!"Generated {nd}-day itinerary")
      (some (.numDays nd)) none

/-- Python `range(1, num_days + 1)`: the 1-based day indices (empty when
the computed day count is not positive). -/
def gen_days (trip : Trip) : List Nat :=
  if num_days trip ≤ 0 then [] else List.range' 1 (num_days trip).toNat

/-- `_generate_itinerary_async` (lines 44-143): mark processing at 5,
fetch the trip (fail the job if missing), run the day loop over
`range(1, num_days + 1)`, then finish. -/
def generate_itinerary_async (env : GenEnv) (s0 : PipeState) : PipeState :=
  let s1 := pipe_update s0 .processing 5 (some "Fetching trip details")
    none none
  match env.trip_row with
  | none =>
    let tid := s0.trip_id
    pipe_update s1 .failed 0 (some "Failed to generate itinerary") none
      (some ("Trip " ++ tid ++ " not found"))
  | some trip =>
    finish_generation (num_days trip)
      (gen_loop env trip (num_days trip).toNat (gen_days trip) s1).1
      (gen_loop env trip (num_days trip).toNat (gen_days trip) s1).2

/-- The state just after `create_job` and the spawn of the worker. -/
def init_pipe_state (job_id trip_id job_type : String)
    (db0 : List DbItem) : PipeState :=
  { job_id := job_id
    trip_id := trip_id
    jobs := create_job [] job_id trip_id job_type 0
    clock := 1
    db_items := db0
    db_ops := []
    trace := [] }

/-- A full generation run for a fresh job. -/
def run_generate (env : GenEnv) (job_id trip_id : String) : PipeState :=
  generate_itinerary_async env
    (init_pipe_state job_id trip_id "itinerary_generation" [])

/-- The environment of one modification run: the `trips` row, the existing
`itinerary_items` rows for the trip (as the dicts the storage query
returns), and the outcome of the single LLM call. -/
structure ModEnv where
  trip_row : Option Trip
  existing_items : List JObj
  llm : Except String String

/-- `_modify_itinerary_async` (lines 255-328): progress 10, fetch trip and
items (fail the job if the trip is missing), progress 30, run the agent,
progress 80, delete all existing rows then insert the replacement,
completed at 100 — or, on an escaped exception, failed with `progress=0`. -/
def modify_itinerary_async (env : ModEnv) (modification : String)
    (s0 : PipeState) : PipeState :=
  let s1 := pipe_update s0 .processing 10 (some "Fetching current itinerary")
    none none
  match env.trip_row with
  | none =>
    let tid := s0.trip_id
    pipe_update s1 .failed 0 (some "Failed to modify itinerary") none
      (some ("Trip " ++ tid ++ " not found"))
  | some trip =>
    let existing := env.existing_items
    let s2 := pipe_update s1 .processing 30 (some "Modifying itinerary with AI")
      none none
    let modified := modify_itinerary existing modification trip env.llm
    let s3 := pipe_update s2 .processing 80 (some "Updating database")
      none none
    let s4 := pipe_delete_items s3
    let s5 := pipe_save_items s4 modified
    pipe_update s5 .completed 100 (some "Itinerary modified successfully")
      (some (.itemsCount modified.length)) none

/-- A full modification run for a fresh job; the items table initially
holds exactly the rows the existing dicts denote. -/
def run_modify (env : ModEnv) (modification job_id trip_id : String) :
    PipeState :=
  modify_itinerary_async env modification
    (init_pipe_state job_id trip_id "itinerary_modification"
      (env.existing_items.map (to_db_item trip_id)))

/-! ## Helper lemmas about dicts, the registry singleton, and the day loop -/

theorem jget_jset_self (o : JObj) (k : String) (v : Json) :
    jget (jset o k v) k = some v := by
  induction o with
  | nil => simp [jset, jget]
  | cons kv rest ih =>
    obtain ⟨k', v'⟩ := kv
    by_cases hk : k' = k
    · subst hk
      rw [jset, if_pos rfl]
      simp [jget]
    · rw [jset, if_neg hk]
      simp [jget, hk, ih]

theorem jget_jset_ne (o : JObj) (k k' : String) (v : Json) (hne : k ≠ k') :
    jget (jset o k' v) k = jget o k := by
  induction o with
  | nil => simp [jset, jget, Ne.symm hne]
  | cons kv rest ih =>
    obtain ⟨k0, v0⟩ := kv
    by_cases hk : k0 = k'
    · subst hk
      rw [jset, if_pos rfl]
      simp [jget, Ne.symm hne]
    · rw [jset, if_neg hk]
      by_cases h0 : k0 = k
      · simp [jget, h0]
      · simp [jget, h0, ih]

theorem lookup_singleton (id : String) (v : Job) :
    lookup_job [(id, v)] id = some v := by
  simp [lookup_job]

theorem update_singleton (id : String) (v : Job) (st : JobStatus) (p : Nat)
    (m : Option String) (r : Option JobResult) (e : Option String)
    (now : Nat) :
    update_job_status [(id, v)] id st p m r e now
      = [(id,
          { v with
            status := st
            progress := p
            message := m
            result := r
            error := e
            updated_at := now })] := by
  simp [update_job_status, lookup_job, update_entries]

/-- Case analysis on `_get_fallback_day`. -/
theorem get_fallback_day_cases (trip : Trip) (day : Nat) (date : String) :
    (trip.destinations = [] ∧ get_fallback_day trip day date
        = .error "IndexError: list index out of range")
    ∨ (∃ d0 rest, trip.destinations = d0 :: rest ∧
        get_fallback_day trip day date = .ok [fallback_obj d0 day date]) := by
  unfold get_fallback_day
  cases hd : trip.destinations with
  | nil => left; exact ⟨rfl, rfl⟩
  | cons d0 rest => right; exact ⟨d0, rest, rfl, rfl⟩

/-- Case analysis on `_parse_single_day_response`: it either returns a
tagged parse result or whatever `_get_fallback_day` does. -/
theorem parse_single_day_cases (txt : String) (trip : Trip) (day : Nat)
    (date : String) :
    (∃ items objs, enrich_day_items day date 0 items = some objs ∧
       parse_single_day_response txt trip day date = .ok objs)
    ∨ parse_single_day_response txt trip day date
        = get_fallback_day trip day date := by
  unfold parse_single_day_response
  cases hp : jsonParse (trimL (strip_all_fences (txt.toList.length + 1)
      txt.toList)) with
  | none => right; simp [parse_single_day_of_json]
  | some j =>
    cases j with
    | arr items =>
      cases he : enrich_day_items day date 0 items with
      | some objs =>
        left
        exact ⟨items, objs, he,
          by simp [parse_single_day_of_json, parse_single_day_tagged, he]⟩
      | none =>
        right
        simp [parse_single_day_of_json, parse_single_day_tagged, he]
    | null => right; simp [parse_single_day_of_json]
    | bool b => right; simp [parse_single_day_of_json]
    | num n => right; simp [parse_single_day_of_json]
    | str s => right; simp [parse_single_day_of_json]
    | obj fields => right; simp [parse_single_day_of_json]

theorem get_fallback_day_error (trip : Trip) (day : Nat) (date : String)
    (e : String) (h : get_fallback_day trip day date = .error e) :
    e = "IndexError: list index out of range" := by
  rcases get_fallback_day_cases trip day date with ⟨_, hfb⟩ | ⟨d0, rest, _, hfb⟩
  · rw [hfb] at h
    injection h with h'
    exact h'.symm
  · rw [hfb] at h
    exact absurd h (by simp)

/-- Every exception that can escape `generate_single_day` is the
`IndexError` raised by `_get_fallback_day` on an empty destination
list. -/
theorem generate_single_day_error (r : Except String String) (trip : Trip)
    (day : Nat) (e : String)
    (h : generate_single_day r trip day = .error e) :
    e = "IndexError: list index out of range" := by
  cases r with
  | error e' =>
    have h' : get_fallback_day trip day
        (day_date (trip.start_day + (day : Int) - 1)) = .error e := h
    exact get_fallback_day_error _ _ _ _ h'
  | ok txt =>
    have h' : parse_single_day_response txt trip day
        (day_date (trip.start_day + (day : Int) - 1)) = .error e := h
    rcases parse_single_day_cases txt trip day
        (day_date (trip.start_day + (day : Int) - 1)) with
      ⟨items, objs, he, hok⟩ | hfb
    · rw [hok] at h'
      exact absurd h' (by simp)
    · rw [hfb] at h'
      exact get_fallback_day_error _ _ _ _ h'

/-- With a non-empty destination list, `generate_single_day` never lets an
exception escape. -/
theorem generate_single_day_ok (r : Except String String) (trip : Trip)
    (day : Nat) (d0 : String) (rest : List String)
    (hdest : trip.destinations = d0 :: rest) :
    ∃ l, generate_single_day r trip day = .ok l := by
  have hfb : ∀ date, get_fallback_day trip day date
      = .ok [fallback_obj d0 day date] := by
    intro date
    rcases get_fallback_day_cases trip day date with ⟨hnil, _⟩ |
      ⟨d0', rest', hd, h⟩
    · rw [hdest] at hnil; exact absurd hnil (by simp)
    · rw [hdest] at hd
      injection hd with h1 h2
      subst h1
      exact h
  cases r with
  | error e =>
    exact ⟨_, hfb (day_date (trip.start_day + (day : Int) - 1))⟩
  | ok txt =>
    rcases parse_single_day_cases txt trip day
        (day_date (trip.start_day + (day : Int) - 1)) with
      ⟨items, objs, he, hok⟩ | hfb'
    · exact ⟨objs, hok⟩
    · exact ⟨_, hfb'.trans (hfb _)⟩

/-- On an LLM failure the day resolves to exactly the fallback item. -/
theorem generate_single_day_of_llm_error (trip : Trip) (day : Nat)
    (d0 : String) (rest : List String) (e : String)
    (hdest : trip.destinations = d0 :: rest) :
    generate_single_day (.error e) trip day
      = .ok [fallback_obj d0 day
          (day_date (trip.start_day + (day : Int) - 1))] := by
  show get_fallback_day trip day _ = _
  unfold get_fallback_day
  rw [hdest]

/-- Every object produced by the tagging loop carries the day number it was
tagged with. -/
theorem enrich_day_items_day (day : Nat) (date : String) :
    ∀ (i : Nat) (items : List Json) (objs : List JObj),
      enrich_day_items day date i items = some objs →
      ∀ o ∈ objs, jget o "day_number" = some (.num day) := by
  intro i items
  induction items generalizing i with
  | nil =>
    intro objs h o ho
    simp only [enrich_day_items] at h
    cases h
    exact absurd ho (List.not_mem_nil o)
  | cons j rest ih =>
    intro objs h o ho
    cases j with
    | obj fields =>
      simp only [enrich_day_items] at h
      cases he : enrich_day_items day date (i + 1) rest with
      | none => rw [he] at h; simp at h
      | some tl =>
        rw [he] at h
        simp only [Option.map_some'] at h
        cases h
        rcases List.mem_cons.mp ho with h1 | h2
        · subst h1
          rw [jget_jset_ne _ "day_number" "order_index" _ (by decide),
            jget_jset_ne _ "day_number" "date" _ (by decide), jget_jset_self]
        · exact ih (i + 1) tl he o h2
    | null => simp [enrich_day_items] at h
    | bool b => simp [enrich_day_items] at h
    | num n => simp [enrich_day_items] at h
    | str s => simp [enrich_day_items] at h
    | arr l => simp [enrich_day_items] at h

/-- The item dicts day `d` contributes (empty in the unreachable case of an
escaped exception). -/
def day_batch (env : GenEnv) (trip : Trip) (d : Nat) : List JObj :=
  match generate_single_day (env.gen_response d) trip d with
  | .ok l => l
  | .error _ => []

/-- Every item dict a day contributes carries that day number: the tagging
loop overwrites `day_number` on parsed items, and the fallback item is
built with it. -/
theorem day_batch_day_number (env : GenEnv) (trip : Trip) (d : Nat)
    (o : JObj) (ho : o ∈ day_batch env trip d) :
    jget o "day_number" = some (.num d) := by
  have hfb_mem : ∀ (l : List JObj) (date : String),
      get_fallback_day trip d date = .ok l → o ∈ l →
      jget o "day_number" = some (.num d) := by
    intro l date hgf hol
    rcases get_fallback_day_cases trip d date with ⟨_, hfb⟩ |
      ⟨d0, rest, _, hfb⟩
    · rw [hfb] at hgf; exact absurd hgf (by simp)
    · rw [hfb] at hgf
      injection hgf with h'
      rw [← h'] at hol
      rw [List.mem_singleton.mp hol]
      rfl
  unfold day_batch at ho
  cases hg : generate_single_day (env.gen_response d) trip d with
  | error e => rw [hg] at ho; exact absurd ho (List.not_mem_nil o)
  | ok l =>
    rw [hg] at ho
    revert hg
    cases env.gen_response d with
    | error e =>
      intro hg
      have hg' : get_fallback_day trip d
          (day_date (trip.start_day + (d : Int) - 1)) = .ok l := hg
      exact hfb_mem l _ hg' ho
    | ok txt =>
      intro hg
      have hg' : parse_single_day_response txt trip d
          (day_date (trip.start_day + (d : Int) - 1)) = .ok l := hg
      rcases parse_single_day_cases txt trip d
          (day_date (trip.start_day + (d : Int) - 1)) with
        ⟨items, objs, he, hok⟩ | hfb'
      · rw [hok] at hg'
        injection hg' with h'
        rw [← h'] at ho
        exact enrich_day_items_day d _ 0 items objs he o ho
      · rw [hfb'] at hg'
        exact hfb_mem l _ hg' ho

/-- Master description of the day loop when the destination list is
non-empty: no exception escapes, the ids are preserved, each day appends
its batch to the items table, and each day writes exactly its two
progress values. -/
theorem gen_loop_run (env : GenEnv) (trip : Trip) (numd : Nat) (d0 : String)
    (rest : List String) (hdest : trip.destinations = d0 :: rest) :
    ∀ (ds : List Nat) (s : PipeState),
      (gen_loop env trip numd ds s).2 = none
      ∧ (gen_loop env trip numd ds s).1.job_id = s.job_id
      ∧ (gen_loop env trip numd ds s).1.trip_id = s.trip_id
      ∧ (gen_loop env trip numd ds s).1.db_items
          = s.db_items ++ ds.flatMap (fun d =>
              (day_batch env trip d).map (to_db_item s.trip_id))
      ∧ (gen_loop env trip numd ds s).1.trace
          = s.trace ++ ds.flatMap (fun d =>
              [(JobStatus.processing, 10 + (d - 1) * (80 / numd)),
               (JobStatus.processing, 10 + d * (80 / numd))])
      ∧ (∀ v, s.jobs = [(s.job_id, v)] →
          ∃ w, (gen_loop env trip numd ds s).1.jobs = [(s.job_id, w)]) := by
  intro ds
  induction ds with
  | nil =>
    intro s
    refine ⟨rfl, rfl, rfl, by simp [gen_loop], by simp [gen_loop], ?_⟩
    intro v hv
    exact ⟨v, hv⟩
  | cons d ds ih =>
    intro s
    obtain ⟨items, hok⟩ :=
      generate_single_day_ok (env.gen_response d) trip d d0 rest hdest
    have hbatch : day_batch env trip d = items := by
      unfold day_batch
      rw [hok]
    have hstep : gen_loop env trip numd (d :: ds) s
        = gen_loop env trip numd ds
            (pipe_update
              (pipe_save_items
                (pipe_update s .processing (10 + (d - 1) * (80 / numd))
                  (some s!"Generating Day {d} of {numd}") none none)
                items)
              .processing (10 + d * (80 / numd))
              (some s!"Day {d} of {numd} complete") none none) := by
      rw [gen_loop, hok]
    obtain ⟨ih1, ih2, ih3, ih4, ih5, ih6⟩ := ih
      (pipe_update
        (pipe_save_items
          (pipe_update s .processing (10 + (d - 1) * (80 / numd))
            (some s!"Generating Day {d} of {numd}") none none)
          items)
        .processing (10 + d * (80 / numd))
        (some s!"Day {d} of {numd} complete") none none)
    refine ⟨by rw [hstep]; exact ih1, by rw [hstep]; exact ih2,
      by rw [hstep]; exact ih3, ?_, ?_, ?_⟩
    · rw [hstep, ih4]
      simp [pipe_update, pipe_save_items, hbatch, List.append_assoc]
    · rw [hstep, ih5]
      simp [pipe_update, pipe_save_items, List.append_assoc]
    · intro v hv
      rw [hstep]
      apply ih6
      simp only [pipe_update, pipe_save_items]
      rw [hv, update_singleton, update_singleton]

theorem pipe_update_jobs (s : PipeState) (st : JobStatus) (p : Nat)
    (m : Option String) (r : Option JobResult) (e : Option String) :
    (pipe_update s st p m r e).jobs
      = update_job_status s.jobs s.job_id st p m r e s.clock := rfl

theorem pipe_update_db_items (s : PipeState) (st : JobStatus) (p : Nat)
    (m : Option String) (r : Option JobResult) (e : Option String) :
    (pipe_update s st p m r e).db_items = s.db_items := rfl

theorem pipe_update_db_ops (s : PipeState) (st : JobStatus) (p : Nat)
    (m : Option String) (r : Option JobResult) (e : Option String) :
    (pipe_update s st p m r e).db_ops = s.db_ops := rfl

theorem pipe_update_trace (s : PipeState) (st : JobStatus) (p : Nat)
    (m : Option String) (r : Option JobResult) (e : Option String) :
    (pipe_update s st p m r e).trace = s.trace ++ [(st, p)] := rfl

/-- The day number stored in a row, when it is an integer. -/
def json_int : Json → Option Int
  | .num k => some k
  | _ => none

def row_day (row : DbItem) : Option Int := row.day_number.bind json_int

/-- The rows belonging to day `d`. -/
def row_is_day (d : Nat) (row : DbItem) : Bool := row_day row == some (d : Int)

/-- The shape of a successful generation run (trip found, destinations
non-empty): the job record ends at `completed` / 100, the items table is
the concatenation of the day batches, and the trace is the initial 5
followed by each day's two values and the final 100. -/
theorem run_generate_components (env : GenEnv) (jid tid : String)
    (trip : Trip) (d0 : String) (rest : List String)
    (htrip : env.trip_row = some trip)
    (hdest : trip.destinations = d0 :: rest) :
    ((lookup_job (run_generate env jid tid).jobs jid).map Job.status
        = some .completed)
    ∧ ((lookup_job (run_generate env jid tid).jobs jid).map Job.progress
        = some 100)
    ∧ (run_generate env jid tid).db_items
        = (gen_days trip).flatMap
            (fun d => (day_batch env trip d).map (to_db_item tid))
    ∧ (run_generate env jid tid).trace
        = (JobStatus.processing, 5)
          :: (gen_days trip).flatMap (fun d =>
              [(JobStatus.processing,
                 10 + (d - 1) * (80 / (num_days trip).toNat)),
               (JobStatus.processing,
                 10 + d * (80 / (num_days trip).toNat))])
          ++ [(JobStatus.completed, 100)] := by
  obtain ⟨hnone, hjid, htid, hdb, htrace, hsing⟩ :=
    gen_loop_run env trip (num_days trip).toNat d0 rest hdest (gen_days trip)
      (pipe_update (init_pipe_state jid tid "itinerary_generation" [])
        .processing 5 (some "Fetching trip details") none none)
  have hrun : run_generate env jid tid
      = finish_generation (num_days trip)
          (gen_loop env trip (num_days trip).toNat (gen_days trip)
            (pipe_update (init_pipe_state jid tid "itinerary_generation" [])
              .processing 5 (some "Fetching trip details") none none)).1
          (gen_loop env trip (num_days trip).toNat (gen_days trip)
            (pipe_update (init_pipe_state jid tid "itinerary_generation" [])
              .processing 5 (some "Fetching trip details") none none)).2 := by
    simp only [run_generate, generate_itinerary_async, htrip]
  have hs1jobs : (pipe_update (init_pipe_state jid tid "itinerary_generation"
      []) .processing 5 (some "Fetching trip details") none none).jobs
      = [(jid,
          { trip_id := tid, job_type := "itinerary_generation",
            status := .processing, progress := 5,
            message := some "Fetching trip details", result := none,
            error := none, created_at := 0, updated_at := 1 })] := by
    simp only [pipe_update, init_pipe_state, create_job]
    rw [update_singleton]
  obtain ⟨w, hw⟩ := hsing _ hs1jobs
  have hjid0 : (pipe_update (init_pipe_state jid tid "itinerary_generation"
      []) .processing 5 (some "Fetching trip details") none none).job_id
      = jid := rfl
  have htid0 : (pipe_update (init_pipe_state jid tid "itinerary_generation"
      []) .processing 5 (some "Fetching trip details") none none).trip_id
      = tid := rfl
  have htrace0 : (pipe_update (init_pipe_state jid tid "itinerary_generation"
      []) .processing 5 (some "Fetching trip details") none none).trace
      = [(JobStatus.processing, 5)] := rfl
  have hdbi0 : (pipe_update (init_pipe_state jid tid "itinerary_generation"
      []) .processing 5 (some "Fetching trip details") none none).db_items
      = [] := rfl
  rw [hjid0] at hw hjid
  rw [htid0] at htid hdb
  rw [htrace0] at htrace
  rw [hdbi0] at hdb
  rw [hrun, hnone]
  simp only [finish_generation]
  refine ⟨?_, ?_, ?_, ?_⟩
  · rw [pipe_update_jobs, hw, hjid, update_singleton, lookup_singleton]
    rfl
  · rw [pipe_update_jobs, hw, hjid, update_singleton, lookup_singleton]
    rfl
  · rw [pipe_update_db_items, hdb]
    simp
  · rw [pipe_update_trace, htrace]
    simp

theorem row_is_day_false (d d' : Nat) (row : DbItem)
    (hrow : row_day row = some (d' : Int)) (hne : d' ≠ d) :
    row_is_day d row = false := by
  unfold row_is_day
  rw [hrow]
  simp only [beq_eq_false_iff_ne, ne_eq, Option.some.injEq]
  intro h
  exact hne (by exact_mod_cast h)

/-- Filtering the concatenated day batches for one day keeps exactly that
day's batch, because every row carries the day number of the batch it
belongs to and the day indices in `range'` are distinct. -/
theorem filter_day_flatMap (g : Nat → List DbItem) (d : Nat)
    (hall : ∀ d' : Nat, ∀ row ∈ g d', row_day row = some (d' : Int)) :
    ∀ (n a : Nat), a ≤ d → d < a + n →
    ((List.range' a n).flatMap g).filter (row_is_day d)
      = (g d).filter (row_is_day d) := by
  intro n
  induction n with
  | zero => intro a h1 h2; omega
  | succ n ih =>
    intro a h1 h2
    rw [List.range'_succ, List.flatMap_cons, List.filter_append]
    by_cases had : a = d
    · subst had
      have hrest : ((List.range' (a + 1) n).flatMap g).filter (row_is_day a)
          = [] := by
        rw [List.filter_eq_nil_iff]
        intro row hrow
        obtain ⟨d', hd', hrowg⟩ := List.mem_flatMap.mp hrow
        obtain ⟨i, _, hdi⟩ := List.mem_range'.mp hd'
        simp only [row_is_day_false a d' row (hall d' row hrowg)
          (by omega), Bool.false_eq_true, not_false_eq_true]
      rw [hrest, List.append_nil]
    · have hga : (g a).filter (row_is_day d) = [] := by
        rw [List.filter_eq_nil_iff]
        intro row hrow
        simp only [row_is_day_false d a row (hall a row hrow) had,
          Bool.false_eq_true, not_false_eq_true]
      rw [hga, List.nil_append]
      exact ih (a + 1) (by omega) (by omega)

/-- The rows of a day batch always carry that day's number. -/
theorem day_batch_rows (env : GenEnv) (trip : Trip) (tid : String)
    (d : Nat) (row : DbItem)
    (hrow : row ∈ (day_batch env trip d).map (to_db_item tid)) :
    row_day row = some (d : Int) := by
  obtain ⟨o, ho, hconv⟩ := List.mem_map.mp hrow
  have hdn : jget o "day_number" = some (.num d) :=
    day_batch_day_number env trip d o ho
  rw [← hconv]
  unfold row_day to_db_item
  simp only [hdn]
  rfl

/-- On an LLM failure for day `d`, the batch is the single fallback row. -/
theorem day_batch_of_llm_error (env : GenEnv) (trip : Trip) (d : Nat)
    (d0 : String) (rest : List String) (e : String)
    (hdest : trip.destinations = d0 :: rest)
    (herr : env.gen_response d = .error e) :
    day_batch env trip d
      = [fallback_obj d0 d (day_date (trip.start_day + (d : Int) - 1))] := by
  unfold day_batch
  rw [herr, generate_single_day_of_llm_error trip d d0 rest e hdest]

theorem row_day_fallback (tid d0 : String) (d : Nat) (date : String) :
    row_day (to_db_item tid (fallback_obj d0 d date)) = some (d : Int) := by
  simp [row_day, to_db_item, fallback_obj, jget, json_int]

theorem row_is_day_fallback (tid d0 : String) (d : Nat) (date : String) :
    row_is_day d (to_db_item tid (fallback_obj d0 d date)) = true := by
  unfold row_is_day
  rw [row_day_fallback]
  simp

/-- C2: for every trip found in storage whose destination list is
non-empty and whose computed day count N = (end - start) + 1 is at least
1, the Day-by-Day Pipeline ends the job at status `completed` with
progress exactly 100; for every day d in 1..N whose Text-Generation call
raises, the persisted rows for day d are exactly the single deterministic
fallback item "Explore {first destination}" (09:00-17:00); hence when
every day's call raises, at least one row is persisted for every day d in
1..N. -/
theorem C2_day_by_day_pipeline_completes (env : GenEnv) (jid tid : String)
    (trip : Trip) (d0 : String) (rest : List String)
    (htrip : env.trip_row = some trip)
    (hdest : trip.destinations = d0 :: rest)
    (hN : 1 ≤ num_days trip) :
    ((lookup_job (run_generate env jid tid).jobs jid).map Job.status
        = some .completed)
    ∧ ((lookup_job (run_generate env jid tid).jobs jid).map Job.progress
        = some 100)
    ∧ (∀ d : Nat, 1 ≤ d → (d : Int) ≤ num_days trip →
        ∀ e, env.gen_response d = .error e →
        (run_generate env jid tid).db_items.filter (row_is_day d)
          = [to_db_item tid (fallback_obj d0 d
              (day_date (trip.start_day + (d : Int) - 1)))])
    ∧ ((∀ d : Nat, ∃ e, env.gen_response d = .error e) →
        ∀ d : Nat, 1 ≤ d → (d : Int) ≤ num_days trip →
        ∃ row ∈ (run_generate env jid tid).db_items,
          row_day row = some (d : Int)) := by
  obtain ⟨h1, h2, hdb, htr⟩ :=
    run_generate_components env jid tid trip d0 rest htrip hdest
  have hdays : gen_days trip = List.range' 1 (num_days trip).toNat := by
    unfold gen_days
    rw [if_neg (by omega)]
  refine ⟨h1, h2, ?_, ?_⟩
  · intro d hd1 hdN e herr
    rw [hdb, hdays,
      filter_day_flatMap (fun d' => (day_batch env trip d').map
        (to_db_item tid)) d
        (fun d' row hrow => day_batch_rows env trip tid d' row hrow)
        (num_days trip).toNat 1 hd1 (by omega),
      day_batch_of_llm_error env trip d d0 rest e hdest herr]
    simp only [List.map_cons, List.map_nil]
    rw [List.filter_cons_of_pos (row_is_day_fallback tid d0 d _)]
    rfl
  · intro hall d hd1 hdN
    obtain ⟨e, herr⟩ := hall d
    refine ⟨to_db_item tid (fallback_obj d0 d
      (day_date (trip.start_day + (d : Int) - 1))), ?_, row_day_fallback _ _ _ _⟩
    rw [hdb, hdays]
    apply List.mem_flatMap.mpr
    refine ⟨d, List.mem_range'.mpr ⟨d - 1, by omega, by omega⟩, ?_⟩
    rw [day_batch_of_llm_error env trip d d0 rest e hdest herr]
    simp

/-- The trip of the C2 witness scenario: one destination, three days. -/
def c2_trip : Trip :=
  { destinations := ["Tokyo, Japan"], start_day := 0, end_day := 2,
    start_date := "2024-06-01" }

/-- Environment in which every generation call raises. -/
def c2_env : GenEnv :=
  { trip_row := some c2_trip, gen_response := fun _ => .error "LLM down" }

/-- Witness for C2 at a concrete three-day trip with every generation call
failing. -/
theorem C2_day_by_day_pipeline_completes_witness :
    ((lookup_job (run_generate c2_env "job-c2" "trip-c2").jobs "job-c2").map
        Job.status = some .completed)
    ∧ ((lookup_job (run_generate c2_env "job-c2" "trip-c2").jobs
        "job-c2").map Job.progress = some 100)
    ∧ (∀ d : Nat, 1 ≤ d → (d : Int) ≤ num_days c2_trip →
        ∀ e, c2_env.gen_response d = .error e →
        (run_generate c2_env "job-c2" "trip-c2").db_items.filter
          (row_is_day d)
          = [to_db_item "trip-c2" (fallback_obj "Tokyo, Japan" d
              (day_date (c2_trip.start_day + (d : Int) - 1)))])
    ∧ ((∀ d : Nat, ∃ e, c2_env.gen_response d = .error e) →
        ∀ d : Nat, 1 ≤ d → (d : Int) ≤ num_days c2_trip →
        ∃ row ∈ (run_generate c2_env "job-c2" "trip-c2").db_items,
          row_day row = some (d : Int)) :=
  C2_day_by_day_pipeline_completes c2_env "job-c2" "trip-c2" c2_trip
    "Tokyo, Japan" [] rfl rfl (by decide)

/-- The progress pairs written by the day loop for days `a..a+n-1`. -/
def progress_pairs (q : Nat) (a n : Nat) : List Nat :=
  (List.range' a n).flatMap (fun d => [10 + (d - 1) * q, 10 + d * q])

theorem progress_pairs_head (q : Nat) (a n : Nat) :
    (progress_pairs q a n ++ [100]).head?
      = if n = 0 then some 100 else some (10 + (a - 1) * q) := by
  cases n with
  | zero => rfl
  | succ n => rw [progress_pairs, List.range'_succ, List.flatMap_cons]; rfl

theorem progress_pairs_chain (q : Nat) :
    ∀ (n a : Nat), (∀ d, a ≤ d → d < a + n → 10 + d * q ≤ 100) →
    List.Chain' (· ≤ ·) (progress_pairs q a n ++ [100]) := by
  intro n
  induction n with
  | zero =>
    intro a _
    simp [progress_pairs]
  | succ n ih =>
    intro a hbound
    rw [progress_pairs, List.range'_succ, List.flatMap_cons, ← progress_pairs]
    have htail := ih (a + 1) (fun d h1 h2 => hbound d (by omega) (by omega))
    have hhead := progress_pairs_head q (a + 1) n
    simp only [List.cons_append, List.nil_append]
    rw [List.chain'_cons', List.chain'_cons']
    refine ⟨?_, ?_, htail⟩
    · intro y hy
      simp only [List.head?_cons, Option.mem_def, Option.some.injEq] at hy
      subst hy
      exact Nat.add_le_add_left (Nat.mul_le_mul_right q (by omega)) 10
    · intro z hz
      rw [hhead] at hz
      by_cases hn : n = 0
      · rw [if_pos hn] at hz
        simp only [Option.mem_def, Option.some.injEq] at hz
        subst hz
        exact hbound a (by omega) (by omega)
      · rw [if_neg hn] at hz
        simp only [Option.mem_def, Option.some.injEq] at hz
        subst hz
        have harg : a + 1 - 1 = a := by omega
        rw [harg]

theorem progress_pairs_getElem (q : Nat) :
    ∀ (n a k : Nat), k < n →
    (progress_pairs q a n)[2 * k]? = some (10 + (a + k - 1) * q)
    ∧ (progress_pairs q a n)[2 * k + 1]? = some (10 + (a + k) * q) := by
  intro n
  induction n with
  | zero => intro a k hk; omega
  | succ n ih =>
    intro a k hk
    rw [progress_pairs, List.range'_succ, List.flatMap_cons, ← progress_pairs]
    simp only [List.cons_append, List.nil_append]
    cases k with
    | zero => constructor <;> simp
    | succ k' =>
      obtain ⟨ih1, ih2⟩ := ih (a + 1) k' (by omega)
      constructor
      · rw [show 2 * (k' + 1) = 2 * k' + 1 + 1 from by omega,
          List.getElem?_cons_succ, List.getElem?_cons_succ, ih1]
        have harg : a + 1 + k' - 1 = a + (k' + 1) - 1 := by omega
        rw [harg]
      · rw [show 2 * (k' + 1) + 1 = 2 * k' + 1 + 1 + 1 from by omega,
          List.getElem?_cons_succ, List.getElem?_cons_succ, ih2]
        have harg : a + 1 + k' = a + (k' + 1) := by omega
        rw [harg]

theorem progress_pairs_length (q : Nat) :
    ∀ (n a : Nat), (progress_pairs q a n).length = 2 * n := by
  intro n
  induction n with
  | zero => intro a; rfl
  | succ n ih =>
    intro a
    rw [progress_pairs, List.range'_succ, List.flatMap_cons, ← progress_pairs]
    simp only [List.cons_append, List.nil_append, List.length_cons, ih]
    omega

theorem progress_pairs_mem_le (q : Nat) :
    ∀ (n a p : Nat), (∀ d, a ≤ d → d < a + n → d * q ≤ 80) →
    p ∈ progress_pairs q a n → p ≤ 100 := by
  intro n a p hall hp
  obtain ⟨d, hd, hpmem⟩ := List.mem_flatMap.mp hp
  obtain ⟨i, hi, hdi⟩ := List.mem_range'.mp hd
  rcases List.mem_cons.mp hpmem with h1 | h2
  · subst h1
    have : (d - 1) * q ≤ d * q := Nat.mul_le_mul_right q (by omega)
    have hd80 : d * q ≤ 80 := hall d (by omega) (by omega)
    omega
  · rcases List.mem_cons.mp h2 with h3 | h4
    · subst h3
      have hd80 : d * q ≤ 80 := hall d (by omega) (by omega)
      omega
    · exact absurd h4 (List.not_mem_nil p)

/-- Closed form of the progress values written by a successful run. -/
theorem run_generate_progress_list (env : GenEnv) (jid tid : String)
    (trip : Trip) (d0 : String) (rest : List String)
    (htrip : env.trip_row = some trip)
    (hdest : trip.destinations = d0 :: rest)
    (hN : 1 ≤ num_days trip) :
    (run_generate env jid tid).trace.map Prod.snd
      = 5 :: (progress_pairs (80 / (num_days trip).toNat) 1
          (num_days trip).toNat ++ [100]) := by
  obtain ⟨_, _, _, htr⟩ :=
    run_generate_components env jid tid trip d0 rest htrip hdest
  have hdays : gen_days trip = List.range' 1 (num_days trip).toNat := by
    unfold gen_days
    rw [if_neg (by omega)]
  rw [htr, hdays, progress_pairs]
  simp [List.map_flatMap]

/-- C3 (amended): for every valid trip (found, non-empty destinations,
N = computed day count at least 1), the sequence of progress values the
Day-by-Day Pipeline writes is monotonically non-decreasing, every value
lies in [0,100] (values are naturals, so 0 is a lower bound by type), and
the value written after completing day d is `10 + d * (80 // N)` — the
code computes `day * (80 // num_days)`, not `(d * 80) // N` as the claim
stated. -/
theorem C3_progress_monotone_bounded (env : GenEnv) (jid tid : String)
    (trip : Trip) (d0 : String) (rest : List String)
    (htrip : env.trip_row = some trip)
    (hdest : trip.destinations = d0 :: rest)
    (hN : 1 ≤ num_days trip) :
    List.Chain' (· ≤ ·) ((run_generate env jid tid).trace.map Prod.snd)
    ∧ (∀ p ∈ (run_generate env jid tid).trace.map Prod.snd, p ≤ 100)
    ∧ (∀ d : Nat, 1 ≤ d → (d : Int) ≤ num_days trip →
        ((run_generate env jid tid).trace.map Prod.snd)[2 * d]?
          = some (10 + d * (80 / (num_days trip).toNat))) := by
  have hps := run_generate_progress_list env jid tid trip d0 rest htrip
    hdest hN
  have hNpos : 1 ≤ (num_days trip).toNat := by omega
  have hq80 : ∀ d, 1 ≤ d → d < 1 + (num_days trip).toNat →
      d * (80 / (num_days trip).toNat) ≤ 80 := by
    intro d h1 h2
    have ha : d * (80 / (num_days trip).toNat)
        ≤ (num_days trip).toNat * (80 / (num_days trip).toNat) :=
      Nat.mul_le_mul_right _ (by omega)
    have hb : (num_days trip).toNat * (80 / (num_days trip).toNat) ≤ 80 := by
      rw [Nat.mul_comm]
      exact Nat.div_mul_le_self 80 (num_days trip).toNat
    omega
  refine ⟨?_, ?_, ?_⟩
  · rw [hps, List.chain'_cons']
    refine ⟨?_, progress_pairs_chain _ _ 1 (fun d h1 h2 => by
      have := hq80 d h1 h2
      omega)⟩
    intro y hy
    rw [progress_pairs_head] at hy
    by_cases hn : (num_days trip).toNat = 0
    · omega
    · rw [if_neg hn] at hy
      simp only [Option.mem_def, Option.some.injEq] at hy
      subst hy
      omega
  · rw [hps]
    intro p hp
    rcases List.mem_cons.mp hp with h5 | hrest
    · omega
    · rcases List.mem_append.mp hrest with hpp | h100
      · exact progress_pairs_mem_le _ _ 1 p
          (fun d h1 h2 => hq80 d h1 h2) hpp
      · have := List.mem_singleton.mp h100
        omega
  · intro d hd1 hdN
    have hdN' : d ≤ (num_days trip).toNat := by omega
    rw [hps, show 2 * d = (2 * (d - 1) + 1) + 1 from by omega,
      List.getElem?_cons_succ,
      List.getElem?_append_left (by rw [progress_pairs_length]; omega),
      (progress_pairs_getElem _ _ 1 (d - 1) (by omega)).2,
      show 1 + (d - 1) = d from by omega]

/-- The three-day trip of the C3 scenario. -/
def c3_trip : Trip :=
  { destinations := ["Tokyo, Japan"], start_day := 0, end_day := 2,
    start_date := "2024-06-01" }

/-- Environment for the C3 scenario: trip found, every generation call
raises. -/
def c3_env : GenEnv :=
  { trip_row := some c3_trip, gen_response := fun _ => .error "rate limit" }

/-- Counterexample to C3 as stated: with N = 3, the progress written after
completing day 2 is `10 + 2 * (80 // 3)` = 62, while the claimed formula
`10 + d*80//N` gives `10 + (2*80)//3` = 63. -/
theorem C3_counterexample :
    (((run_generate c3_env "job-c3" "trip-c3").trace.map Prod.snd)[4]?
      = some 62)
    ∧ 10 + 2 * 80 / 3 = 63
    ∧ (62 : Nat) ≠ 63 := by
  refine ⟨by decide, by decide, by decide⟩

/-- Witness for the amended C3 at the concrete three-day trip. -/
theorem C3_progress_monotone_bounded_witness :
    List.Chain' (· ≤ ·)
      ((run_generate c3_env "job-c3" "trip-c3").trace.map Prod.snd)
    ∧ (∀ p ∈ (run_generate c3_env "job-c3" "trip-c3").trace.map Prod.snd,
        p ≤ 100)
    ∧ (∀ d : Nat, 1 ≤ d → (d : Int) ≤ num_days c3_trip →
        ((run_generate c3_env "job-c3" "trip-c3").trace.map Prod.snd)[2 * d]?
          = some (10 + d * (80 / (num_days c3_trip).toNat))) :=
  C3_progress_monotone_bounded c3_env "job-c3" "trip-c3" c3_trip
    "Tokyo, Japan" [] rfl rfl (by decide)

theorem pipe_update_job_id (s : PipeState) (st : JobStatus) (p : Nat)
    (m : Option String) (r : Option JobResult) (e : Option String) :
    (pipe_update s st p m r e).job_id = s.job_id := rfl

theorem pipe_save_items_jobs (s : PipeState) (items : List JObj) :
    (pipe_save_items s items).jobs = s.jobs := rfl

theorem pipe_save_items_job_id (s : PipeState) (items : List JObj) :
    (pipe_save_items s items).job_id = s.job_id := rfl

theorem pipe_save_items_db_items (s : PipeState) (items : List JObj) :
    (pipe_save_items s items).db_items
      = s.db_items ++ items.map (to_db_item s.trip_id) := rfl

theorem pipe_save_items_db_ops (s : PipeState) (items : List JObj) :
    (pipe_save_items s items).db_ops
      = s.db_ops ++ [.insertItems (items.map (to_db_item s.trip_id))] := rfl

theorem pipe_save_items_trip_id (s : PipeState) (items : List JObj) :
    (pipe_save_items s items).trip_id = s.trip_id := rfl

theorem pipe_delete_items_jobs (s : PipeState) :
    (pipe_delete_items s).jobs = s.jobs := rfl

theorem pipe_delete_items_job_id (s : PipeState) :
    (pipe_delete_items s).job_id = s.job_id := rfl

theorem pipe_delete_items_db_items (s : PipeState) :
    (pipe_delete_items s).db_items = [] := rfl

theorem pipe_delete_items_db_ops (s : PipeState) :
    (pipe_delete_items s).db_ops = s.db_ops ++ [.deleteItems s.trip_id] := rfl

theorem pipe_delete_items_trip_id (s : PipeState) :
    (pipe_delete_items s).trip_id = s.trip_id := rfl

theorem pipe_update_trip_id (s : PipeState) (st : JobStatus) (p : Nat)
    (m : Option String) (r : Option JobResult) (e : Option String) :
    (pipe_update s st p m r e).trip_id = s.trip_id := rfl

/-- After an update call, the owning job id maps to a record whose mutable
fields were just written. -/
theorem lookup_after_pipe_update (s : PipeState) (st : JobStatus) (p : Nat)
    (m : Option String) (r : Option JobResult) (e : Option String)
    (hw : ∃ w, lookup_job s.jobs s.job_id = some w) :
    ∃ w', lookup_job (pipe_update s st p m r e).jobs
        (pipe_update s st p m r e).job_id = some w'
      ∧ w'.status = st ∧ w'.progress = p ∧ w'.error = e := by
  obtain ⟨w, hw⟩ := hw
  have hlook : lookup_job (pipe_update s st p m r e).jobs s.job_id
      = some { w with
          status := st
          progress := p
          message := m
          result := r
          error := e
          updated_at := s.clock } := by
    rw [pipe_update_jobs, lookup_update_self, hw]
    rfl
  exact ⟨_, hlook, rfl, rfl, rfl⟩

theorem lookup_init (jid tid jt : String) (db0 : List DbItem) :
    ∃ w, lookup_job (init_pipe_state jid tid jt db0).jobs
      (init_pipe_state jid tid jt db0).job_id = some w := by
  have hlook : lookup_job (create_job [] jid tid jt 0) jid
      = some { trip_id := tid
               job_type := jt
               status := .pending
               progress := 0
               message := some "Job created"
               result := none
               error := none
               created_at := 0
               updated_at := 0 } := by
    unfold create_job
    rw [lookup_singleton]
  exact ⟨_, hlook⟩

/-- The day loop preserves the owning job id and the presence of its
record. -/
theorem gen_loop_lookup (env : GenEnv) (trip : Trip) (numd : Nat) :
    ∀ (ds : List Nat) (s : PipeState),
      (∃ w, lookup_job s.jobs s.job_id = some w) →
      (gen_loop env trip numd ds s).1.job_id = s.job_id
      ∧ ∃ w, lookup_job (gen_loop env trip numd ds s).1.jobs
          (gen_loop env trip numd ds s).1.job_id = some w := by
  intro ds
  induction ds with
  | nil => intro s hw; exact ⟨rfl, hw⟩
  | cons d ds ih =>
    intro s hw
    cases hg : generate_single_day (env.gen_response d) trip d with
    | error e =>
      rw [gen_loop, hg]
      refine ⟨rfl, ?_⟩
      obtain ⟨w', hw', _⟩ := lookup_after_pipe_update s .processing
        (10 + (d - 1) * (80 / numd)) (some s!"Generating Day {d} of {numd}")
        none none hw
      exact ⟨w', hw'⟩
    | ok items =>
      rw [gen_loop, hg]
      apply ih
      obtain ⟨w', hw', _⟩ := lookup_after_pipe_update
        (pipe_save_items
          (pipe_update s .processing (10 + (d - 1) * (80 / numd))
            (some s!"Generating Day {d} of {numd}") none none) items)
        .processing (10 + d * (80 / numd))
        (some s!"Day {d} of {numd} complete") none none
        (by
          rw [pipe_save_items_jobs, pipe_save_items_job_id]
          obtain ⟨w0, hw0, _⟩ := lookup_after_pipe_update s .processing
            (10 + (d - 1) * (80 / numd))
            (some s!"Generating Day {d} of {numd}") none none hw
          exact ⟨w0, hw0⟩)
      exact ⟨w', hw'⟩

/-- Every exception message the day loop can propagate is the fallback
`IndexError`. -/
theorem gen_loop_error_msg (env : GenEnv) (trip : Trip) (numd : Nat) :
    ∀ (ds : List Nat) (s : PipeState) (e : String),
      (gen_loop env trip numd ds s).2 = some e →
      e = "IndexError: list index out of range" := by
  intro ds
  induction ds with
  | nil => intro s e h; exact absurd h (by simp [gen_loop])
  | cons d ds ih =>
    intro s e h
    cases hg : generate_single_day (env.gen_response d) trip d with
    | error e' =>
      rw [gen_loop, hg] at h
      simp only [Option.some.injEq] at h
      subst h
      exact generate_single_day_error _ _ _ _ hg
    | ok items =>
      rw [gen_loop, hg] at h
      exact ih _ e h

theorem trip_not_found_ne_empty (tid : String) :
    ("Trip " ++ tid ++ " not found") ≠ "" := by
  intro h
  have hlen := congrArg String.length h
  simp only [String.length_append] at hlen
  have h5 : (0 : Nat) < ("Trip " : String).length := by decide
  have h0 : ("" : String).length = 0 := rfl
  rw [h0] at hlen
  omega

/-- Final job record of a generation run whose trip row is missing. -/
theorem run_generate_not_found (env : GenEnv) (jid tid : String)
    (ht : env.trip_row = none) :
    lookup_job (run_generate env jid tid).jobs jid
      = some { trip_id := tid
               job_type := "itinerary_generation"
               status := .failed
               progress := 0
               message := some "Failed to generate itinerary"
               result := none
               error := some ("Trip " ++ tid ++ " not found")
               created_at := 0
               updated_at := 2 } := by
  have hrun : run_generate env jid tid
      = pipe_update
          (pipe_update (init_pipe_state jid tid "itinerary_generation" [])
            .processing 5 (some "Fetching trip details") none none)
          .failed 0 (some "Failed to generate itinerary") none
          (some ("Trip "
            ++ (init_pipe_state jid tid "itinerary_generation" []).trip_id
            ++ " not found")) := by
    simp only [run_generate, generate_itinerary_async, ht]
  have hs1 : (pipe_update (init_pipe_state jid tid "itinerary_generation" [])
      .processing 5 (some "Fetching trip details") none none).jobs
      = [(jid, { trip_id := tid
                 job_type := "itinerary_generation"
                 status := .processing
                 progress := 5
                 message := some "Fetching trip details"
                 result := none
                 error := none
                 created_at := 0
                 updated_at := 1 })] := by
    simp only [pipe_update, init_pipe_state, create_job]
    rw [update_singleton]
  rw [hrun, pipe_update_jobs, hs1,
    show (pipe_update (init_pipe_state jid tid "itinerary_generation" [])
      .processing 5 (some "Fetching trip details") none none).job_id = jid
      from rfl,
    show (pipe_update (init_pipe_state jid tid "itinerary_generation" [])
      .processing 5 (some "Fetching trip details") none none).clock = 2
      from rfl,
    show (init_pipe_state jid tid "itinerary_generation" []).trip_id = tid
      from rfl,
    update_singleton, lookup_singleton]

/-- Final job record of a modification run whose trip row is missing. -/
theorem run_modify_not_found (env : ModEnv) (modification jid tid : String)
    (ht : env.trip_row = none) :
    lookup_job (run_modify env modification jid tid).jobs jid
      = some { trip_id := tid
               job_type := "itinerary_modification"
               status := .failed
               progress := 0
               message := some "Failed to modify itinerary"
               result := none
               error := some ("Trip " ++ tid ++ " not found")
               created_at := 0
               updated_at := 2 } := by
  have hrun : run_modify env modification jid tid
      = pipe_update
          (pipe_update (init_pipe_state jid tid "itinerary_modification"
            (env.existing_items.map (to_db_item tid)))
            .processing 10 (some "Fetching current itinerary") none none)
          .failed 0 (some "Failed to modify itinerary") none
          (some ("Trip "
            ++ (init_pipe_state jid tid "itinerary_modification"
              (env.existing_items.map (to_db_item tid))).trip_id
            ++ " not found")) := by
    simp only [run_modify, modify_itinerary_async, ht]
  have hs1 : (pipe_update (init_pipe_state jid tid "itinerary_modification"
      (env.existing_items.map (to_db_item tid)))
      .processing 10 (some "Fetching current itinerary") none none).jobs
      = [(jid, { trip_id := tid
                 job_type := "itinerary_modification"
                 status := .processing
                 progress := 10
                 message := some "Fetching current itinerary"
                 result := none
                 error := none
                 created_at := 0
                 updated_at := 1 })] := by
    simp only [pipe_update, init_pipe_state, create_job]
    rw [update_singleton]
  rw [hrun, pipe_update_jobs, hs1,
    show (pipe_update (init_pipe_state jid tid "itinerary_modification"
      (env.existing_items.map (to_db_item tid)))
      .processing 10 (some "Fetching current itinerary") none none).job_id
      = jid from rfl,
    show (pipe_update (init_pipe_state jid tid "itinerary_modification"
      (env.existing_items.map (to_db_item tid)))
      .processing 10 (some "Fetching current itinerary") none none).clock
      = 2 from rfl,
    show (init_pipe_state jid tid "itinerary_modification"
      (env.existing_items.map (to_db_item tid))).trip_id = tid from rfl,
    update_singleton, lookup_singleton]

/-- The state of a modification run just before its final `completed`
update: three progress updates, the delete, and the replacement insert. -/
def mod_state4 (env : ModEnv) (modification jid tid : String) (trip : Trip) :
    PipeState :=
  pipe_save_items
    (pipe_delete_items
      (pipe_update
        (pipe_update
          (pipe_update (init_pipe_state jid tid "itinerary_modification"
            (env.existing_items.map (to_db_item tid)))
            .processing 10 (some "Fetching current itinerary") none none)
          .processing 30 (some "Modifying itinerary with AI") none none)
        .processing 80 (some "Updating database") none none))
    (modify_itinerary env.existing_items modification trip env.llm)

theorem run_modify_found (env : ModEnv) (modification jid tid : String)
    (trip : Trip) (ht : env.trip_row = some trip) :
    run_modify env modification jid tid
      = pipe_update (mod_state4 env modification jid tid trip)
          .completed 100 (some "Itinerary modified successfully")
          (some (.itemsCount (modify_itinerary env.existing_items
            modification trip env.llm).length)) none := by
  simp only [run_modify, modify_itinerary_async, ht, mod_state4]

/-- Final shape of a modification run whose trip was found: the job ends
`completed` at 100, the table holds exactly the agent's output, and the
storage operations are delete-then-insert. -/
theorem run_modify_some_components (env : ModEnv)
    (modification jid tid : String) (trip : Trip)
    (ht : env.trip_row = some trip) :
    ((lookup_job (run_modify env modification jid tid).jobs jid).map
        Job.status = some .completed)
    ∧ ((lookup_job (run_modify env modification jid tid).jobs jid).map
        Job.progress = some 100)
    ∧ (run_modify env modification jid tid).db_items
        = (modify_itinerary env.existing_items modification trip
            env.llm).map (to_db_item tid)
    ∧ (run_modify env modification jid tid).db_ops
        = [.deleteItems tid,
           .insertItems ((modify_itinerary env.existing_items modification
             trip env.llm).map (to_db_item tid))] := by
  rw [run_modify_found env modification jid tid trip ht]
  have hchain : ∃ w, lookup_job
      (mod_state4 env modification jid tid trip).jobs
      (mod_state4 env modification jid tid trip).job_id = some w := by
    unfold mod_state4
    rw [pipe_save_items_jobs, pipe_save_items_job_id,
      pipe_delete_items_jobs, pipe_delete_items_job_id]
    obtain ⟨w3, hw3, _⟩ := lookup_after_pipe_update _ .processing 80
      (some "Updating database") none none (by
        obtain ⟨w2, hw2, _⟩ := lookup_after_pipe_update _ .processing 30
          (some "Modifying itinerary with AI") none none (by
            obtain ⟨w1, hw1, _⟩ := lookup_after_pipe_update _ .processing 10
              (some "Fetching current itinerary") none none
              (lookup_init jid tid "itinerary_modification" _)
            exact ⟨w1, hw1⟩)
        exact ⟨w2, hw2⟩)
    exact ⟨w3, hw3⟩
  obtain ⟨w, hw, hs, hp, _⟩ := lookup_after_pipe_update
    (mod_state4 env modification jid tid trip) .completed 100
    (some "Itinerary modified successfully")
    (some (.itemsCount (modify_itinerary env.existing_items modification
      trip env.llm).length)) none hchain
  rw [pipe_update_job_id,
    show (mod_state4 env modification jid tid trip).job_id = jid from rfl]
    at hw
  refine ⟨?_, ?_, ?_, ?_⟩
  · rw [hw]
    simp [hs]
  · rw [hw]
    simp [hp]
  · rw [pipe_update_db_items]
    unfold mod_state4
    rw [pipe_save_items_db_items, pipe_delete_items_db_items,
      show (pipe_delete_items
        (pipe_update
          (pipe_update
            (pipe_update (init_pipe_state jid tid "itinerary_modification"
              (env.existing_items.map (to_db_item tid)))
              .processing 10 (some "Fetching current itinerary") none none)
            .processing 30 (some "Modifying itinerary with AI") none none)
          .processing 80 (some "Updating database") none none)).trip_id
        = tid from rfl]
    simp
  · rw [pipe_update_db_ops]
    unfold mod_state4
    rw [pipe_save_items_db_ops, pipe_delete_items_db_ops,
      show (pipe_update
          (pipe_update
            (pipe_update (init_pipe_state jid tid "itinerary_modification"
              (env.existing_items.map (to_db_item tid)))
              .processing 10 (some "Fetching current itinerary") none none)
            .processing 30 (some "Modifying itinerary with AI") none none)
          .processing 80 (some "Updating database") none none).db_ops
        = [] from rfl,
      show (pipe_update
          (pipe_update
            (pipe_update (init_pipe_state jid tid "itinerary_modification"
              (env.existing_items.map (to_db_item tid)))
              .processing 10 (some "Fetching current itinerary") none none)
            .processing 30 (some "Modifying itinerary with AI") none none)
          .processing 80 (some "Updating database") none none).trip_id
        = tid from rfl,
      show (pipe_delete_items
        (pipe_update
          (pipe_update
            (pipe_update (init_pipe_state jid tid "itinerary_modification"
              (env.existing_items.map (to_db_item tid)))
              .processing 10 (some "Fetching current itinerary") none none)
            .processing 30 (some "Modifying itinerary with AI") none none)
          .processing 80 (some "Updating database") none none)).trip_id
        = tid from rfl]
    simp

/-! ## C4: what a polling client sees when a pipeline job fails -/

/-- The state of a generation run after the initial `processing`/5 update. -/
def gen_state1 (jid tid : String) : PipeState :=
  pipe_update (init_pipe_state jid tid "itinerary_generation" [])
    .processing 5 (some "Fetching trip details") none none

theorem gen_state1_lookup (jid tid : String) :
    ∃ w, lookup_job (gen_state1 jid tid).jobs (gen_state1 jid tid).job_id
      = some w := by
  unfold gen_state1
  obtain ⟨w, hw, _⟩ := lookup_after_pipe_update _ .processing 5
    (some "Fetching trip details") none none
    (lookup_init jid tid "itinerary_generation" [])
  exact ⟨w, hw⟩

/-- Shape of a generation run whose trip row was found. -/
theorem run_generate_found (env : GenEnv) (jid tid : String) (trip : Trip)
    (ht : env.trip_row = some trip) :
    run_generate env jid tid
      = finish_generation (num_days trip)
          (gen_loop env trip (num_days trip).toNat (gen_days trip)
            (gen_state1 jid tid)).1
          (gen_loop env trip (num_days trip).toNat (gen_days trip)
            (gen_state1 jid tid)).2 := by
  simp only [run_generate, generate_itinerary_async, ht, gen_state1]

/-- C4 (corrected): a pipeline job that ends in `failed` does carry a
non-empty `error` string, but its `progress` is always 0 — both
exception handlers pass `progress=0`, so the progress reached at failure
time is NOT what the polling client sees. -/
theorem C4_failed_job_has_error_but_progress_zero (genv : GenEnv)
    (menv : ModEnv) (modification gjid gtid mjid mtid : String) (j j2 : Job)
    (hg : lookup_job (run_generate genv gjid gtid).jobs gjid = some j)
    (hgf : j.status = .failed)
    (hm : lookup_job (run_modify menv modification mjid mtid).jobs mjid
      = some j2)
    (hmf : j2.status = .failed) :
    (j.progress = 0 ∧ ∃ e, j.error = some e ∧ e ≠ "")
    ∧ (j2.progress = 0 ∧ ∃ e, j2.error = some e ∧ e ≠ "") := by
  constructor
  · cases htr : genv.trip_row with
    | none =>
      rw [run_generate_not_found genv gjid gtid htr] at hg
      injection hg with hj
      subst hj
      exact ⟨rfl, ("Trip " ++ gtid ++ " not found"), rfl,
        trip_not_found_ne_empty gtid⟩
    | some trip =>
      have hrun := run_generate_found genv gjid gtid trip htr
      obtain ⟨hid, hex⟩ := gen_loop_lookup genv trip (num_days trip).toNat
        (gen_days trip) (gen_state1 gjid gtid) (gen_state1_lookup gjid gtid)
      cases h2 : (gen_loop genv trip (num_days trip).toNat (gen_days trip)
          (gen_state1 gjid gtid)).2 with
      | none =>
        rw [h2] at hrun
        simp only [finish_generation] at hrun
        rw [hrun] at hg
        obtain ⟨w, hw, hst, hpr, herr⟩ := lookup_after_pipe_update
          (gen_loop genv trip (num_days trip).toNat (gen_days trip)
            (gen_state1 gjid gtid)).1
          .completed 100 (some s!"Generated {num_days trip}-day itinerary")
          (some (.numDays (num_days trip))) none hex
        rw [pipe_update_job_id, hid,
          show (gen_state1 gjid gtid).job_id = gjid from rfl] at hw
        rw [hg] at hw
        injection hw with hjw
        rw [hjw, hst] at hgf
        exact JobStatus.noConfusion hgf
      | some e =>
        rw [h2] at hrun
        simp only [finish_generation] at hrun
        rw [hrun] at hg
        obtain ⟨w, hw, hst, hpr, herr⟩ := lookup_after_pipe_update
          (gen_loop genv trip (num_days trip).toNat (gen_days trip)
            (gen_state1 gjid gtid)).1
          .failed 0 (some "Failed to generate itinerary") none (some e) hex
        rw [pipe_update_job_id, hid,
          show (gen_state1 gjid gtid).job_id = gjid from rfl] at hw
        rw [hg] at hw
        injection hw with hjw
        rw [hjw]
        refine ⟨hpr, e, herr, ?_⟩
        have hmsg := gen_loop_error_msg genv trip (num_days trip).toNat
          (gen_days trip) (gen_state1 gjid gtid) e h2
        subst hmsg
        decide
  · cases htr : menv.trip_row with
    | none =>
      rw [run_modify_not_found menv modification mjid mtid htr] at hm
      injection hm with hj
      subst hj
      exact ⟨rfl, ("Trip " ++ mtid ++ " not found"), rfl,
        trip_not_found_ne_empty mtid⟩
    | some trip =>
      obtain ⟨hstat, _, _, _⟩ := run_modify_some_components menv modification
        mjid mtid trip htr
      have hstat2 : j2.status = JobStatus.completed := by
        rw [hm] at hstat
        simpa using hstat
      rw [hmf] at hstat2
      exact JobStatus.noConfusion hstat2

def c4_genv : GenEnv :=
  { trip_row := none
    gen_response := fun _ => .error "llm down" }

def c4_menv : ModEnv :=
  { trip_row := none
    existing_items := []
    llm := .error "llm down" }

/-- Counterexample to C4 as stated: in a generation run that fails because
the trip row is missing, the progress trace shows that progress 5 had been
reached before the failure, yet the final `failed` record carries
progress 0, not 5 — the failure transition resets progress. -/
theorem C4_counterexample :
    ((run_generate c4_genv "job-c4" "trip-c4").trace.map Prod.snd = [5, 0])
    ∧ ((lookup_job (run_generate c4_genv "job-c4" "trip-c4").jobs
        "job-c4").map Job.status = some .failed)
    ∧ ((lookup_job (run_generate c4_genv "job-c4" "trip-c4").jobs
        "job-c4").map Job.progress = some 0)
    ∧ (5 : Nat) ≠ 0 :=
  ⟨rfl, rfl, rfl, by decide⟩

def c4_gen_rec : Job :=
  { trip_id := "trip-c4"
    job_type := "itinerary_generation"
    status := .failed
    progress := 0
    message := some "Failed to generate itinerary"
    result := none
    error := some "Trip trip-c4 not found"
    created_at := 0
    updated_at := 2 }

def c4_mod_rec : Job :=
  { trip_id := "trip-c4m"
    job_type := "itinerary_modification"
    status := .failed
    progress := 0
    message := some "Failed to modify itinerary"
    result := none
    error := some "Trip trip-c4m not found"
    created_at := 0
    updated_at := 2 }

theorem C4_failed_job_has_error_but_progress_zero_witness :
    (c4_gen_rec.progress = 0 ∧ ∃ e, c4_gen_rec.error = some e ∧ e ≠ "")
    ∧ (c4_mod_rec.progress = 0 ∧ ∃ e, c4_mod_rec.error = some e ∧ e ≠ "") :=
  C4_failed_job_has_error_but_progress_zero c4_genv c4_menv "swap hotels"
    "job-c4" "trip-c4" "job-c4m" "trip-c4m" c4_gen_rec c4_mod_rec
    (by decide) rfl (by decide) rfl

/-! ## C1: the modification pipeline on a failing LLM call -/

/-- C1 (corrected): when the trip row exists and the text-generation call
raises, `modify_itinerary` swallows the exception and returns the existing
items, so the pipeline continues: it DOES execute the delete step, then
reinserts the (unchanged) existing rows, and the job ends `completed`, not
`failed`. -/
theorem C1_llm_failure_still_deletes_and_completes (env : ModEnv)
    (modification jid tid : String) (trip : Trip) (e : String)
    (ht : env.trip_row = some trip) (hllm : env.llm = .error e) :
    ((lookup_job (run_modify env modification jid tid).jobs jid).map
        Job.status = some .completed)
    ∧ (run_modify env modification jid tid).db_items
        = env.existing_items.map (to_db_item tid)
    ∧ (run_modify env modification jid tid).db_ops
        = [.deleteItems tid,
           .insertItems (env.existing_items.map (to_db_item tid))] := by
  have hmod : modify_itinerary env.existing_items modification trip env.llm
      = env.existing_items := by
    rw [hllm, modify_itinerary]
  obtain ⟨h1, _, h3, h4⟩ := run_modify_some_components env modification
    jid tid trip ht
  rw [hmod] at h3 h4
  exact ⟨h1, h3, h4⟩

def c1_trip : Trip :=
  { destinations := ["Lisbon, Portugal"]
    start_day := 100
    end_day := 101
    start_date := "2025-04-10" }

def c1_env : ModEnv :=
  { trip_row := some c1_trip
    existing_items := []
    llm := .error "API timeout" }

/-- Counterexample to C1 as stated: with an empty existing-item list and a
failing text-generation call, the job's final status is `completed` (not
`failed`) and the delete step IS executed. -/
theorem C1_counterexample :
    c1_env.llm = .error "API timeout"
    ∧ ((lookup_job (run_modify c1_env "add a museum" "job-c1" "trip-c1").jobs
        "job-c1").map Job.status = some .completed)
    ∧ JobStatus.completed ≠ JobStatus.failed
    ∧ (run_modify c1_env "add a museum" "job-c1" "trip-c1").db_ops
        = [.deleteItems "trip-c1", .insertItems []] :=
  ⟨rfl, rfl, by decide, rfl⟩

theorem C1_llm_failure_still_deletes_and_completes_witness :
    ((lookup_job (run_modify c1_env "add a museum" "job-c1w" "trip-c1w").jobs
        "job-c1w").map Job.status = some .completed)
    ∧ (run_modify c1_env "add a museum" "job-c1w" "trip-c1w").db_items
        = c1_env.existing_items.map (to_db_item "trip-c1w")
    ∧ (run_modify c1_env "add a museum" "job-c1w" "trip-c1w").db_ops
        = [.deleteItems "trip-c1w",
           .insertItems (c1_env.existing_items.map (to_db_item "trip-c1w"))] :=
  C1_llm_failure_still_deletes_and_completes c1_env "add a museum"
    "job-c1w" "trip-c1w" c1_trip "API timeout" rfl rfl

/-! ## C7: the task-merge step of `TaskAgent.generate_tasks` -/

/-- One task dict as produced by the specialists and by
`_parse_task_response` (all producers set exactly these five keys, with
`title` and `category` strings). -/
structure TripTask where
  title : String
  description : Option String
  category : String
  priority : String
  completed : Bool
deriving DecidableEq, Repr

/-- `task.get("category", "").lower() != "visa"` (lines 120-123), applied
only when `visa_tasks` is truthy (line 117). -/
def filter_visa_generics (visa general : List TripTask) : List TripTask :=
  if visa.isEmpty then general
  else general.filter (fun t => !(lowerL t.category.toList == "visa".toList))

def vaccine_words : List (List Char) :=
  ["vaccine".toList, "vaccination".toList, "immunization".toList]

/-- `task.get("category", "").lower() == "health" and any(word in
task.get("title", "").lower() for word in [...])` (lines 133-136). -/
def is_generic_vaccine (t : TripTask) : Bool :=
  lowerL t.category.toList == "health".toList
    && vaccine_words.any (fun w => containsL w (lowerL t.title.toList))

/-- The second filter (lines 131-137), applied only when `vaccine_tasks`
is truthy (line 129). -/
def filter_vaccine_generics (vaccine general : List TripTask) : List TripTask :=
  if vaccine.isEmpty then general
  else general.filter (fun t => !(is_generic_vaccine t))

/-- The merge step of `TaskAgent.generate_tasks` (lines 116-142):
`all_tasks = visa_tasks + vaccine_tasks + general_tasks` after the two
conditional filters on `general_tasks`. -/
def merge_tasks (visa vaccine general : List TripTask) : List TripTask :=
  visa ++ vaccine
    ++ filter_vaccine_generics vaccine (filter_visa_generics visa general)

theorem filter_visa_generics_sublist (visa general : List TripTask) :
    (filter_visa_generics visa general).Sublist general := by
  unfold filter_visa_generics
  split
  · exact List.Sublist.refl _
  · exact List.filter_sublist _

theorem filter_vaccine_generics_sublist (vaccine general : List TripTask) :
    (filter_vaccine_generics vaccine general).Sublist general := by
  unfold filter_vaccine_generics
  split
  · exact List.Sublist.refl _
  · exact List.filter_sublist _

/-- C7: the merged list is visa tasks, then vaccine (health) tasks, then a
sub-selection of the general tasks; when at least one visa task exists the
surviving general entries never have (lower-cased) category `visa`, and
when at least one vaccine task exists none of them is a generic
health-category vaccine/vaccination/immunization task. -/
theorem C7_merge_order_and_dedup (visa vaccine general : List TripTask) :
    ∃ g, merge_tasks visa vaccine general = visa ++ vaccine ++ g
      ∧ g.Sublist general
      ∧ (visa ≠ [] → ∀ t ∈ g,
          (lowerL t.category.toList == "visa".toList) = false)
      ∧ (vaccine ≠ [] → ∀ t ∈ g, is_generic_vaccine t = false) := by
  refine ⟨filter_vaccine_generics vaccine (filter_visa_generics visa general),
    rfl, ?_, ?_, ?_⟩
  · exact (filter_vaccine_generics_sublist _ _).trans
      (filter_visa_generics_sublist _ _)
  · intro hv t ht
    have ht1 : t ∈ filter_visa_generics visa general :=
      (filter_vaccine_generics_sublist _ _).mem ht
    rw [filter_visa_generics, if_neg (by simpa using hv)] at ht1
    have := List.of_mem_filter ht1
    simpa using this
  · intro hw t ht
    rw [filter_vaccine_generics, if_neg (by simpa using hw)] at ht
    have := List.of_mem_filter ht
    simpa using this

def c7_visa_task : TripTask :=
  { title := "Apply for Japan visa"
    description := some "Apply at the embassy"
    category := "visa"
    priority := "high"
    completed := false }

def c7_vaccine_task : TripTask :=
  { title := "Get required Typhoid vaccine"
    description := some "Consult a travel clinic"
    category := "health"
    priority := "high"
    completed := false }

def c7_general_tasks : List TripTask :=
  [ { title := "Check Visa requirements"
      description := none
      category := "Visa"
      priority := "medium"
      completed := false },
    { title := "Get travel vaccinations"
      description := none
      category := "health"
      priority := "medium"
      completed := false },
    { title := "Book flights"
      description := none
      category := "general"
      priority := "high"
      completed := false } ]

theorem C7_merge_order_and_dedup_witness :
    ∃ g, merge_tasks [c7_visa_task] [c7_vaccine_task] c7_general_tasks
        = [c7_visa_task] ++ [c7_vaccine_task] ++ g
      ∧ g.Sublist c7_general_tasks
      ∧ ([c7_visa_task] ≠ [] → ∀ t ∈ g,
          (lowerL t.category.toList == "visa".toList) = false)
      ∧ ([c7_vaccine_task] ≠ [] → ∀ t ∈ g, is_generic_vaccine t = false) :=
  C7_merge_order_and_dedup [c7_visa_task] [c7_vaccine_task] c7_general_tasks

/-! ## C9: `VaccineAgent` required-vaccine classification -/

/-- Python regex `\w` on the texts under test (ASCII letters, digits,
underscore). -/
def word_char (c : Char) : Bool := c.isAlphanum || c = '_'

/-- The zero-width `\b` before a position whose preceding character is
`prev` (`none` at the start of the text), for a pattern starting with a
word character. -/
def boundary_ok : Option Char → Bool
  | none => true
  | some c => !(word_char c)

/-- The zero-width `\b` after a pattern ending in a word character, given
the rest of the text. -/
def after_boundary_ok : List Char → Bool
  | [] => true
  | c :: _ => !(word_char c)

/-- Greedy `.{0,200}` with nothing after it: up to `n` characters,
stopping at a newline (`.` does not match `\n` without `re.DOTALL`). -/
def window200 : Nat → List Char → List Char
  | 0, _ => []
  | _ + 1, [] => []
  | n + 1, c :: rest => if c = '\n' then [] else c :: window200 n rest

/-- `re.findall(rf'\b{re.escape(v)}\b.{{0,200}}', cs)` for a literal `v`
that starts and ends in a word character (true of all 18 vaccine names):
a left-to-right non-overlapping scan; each match is the vaccine name plus
its greedy window, and scanning resumes after the window. `prev` is the
character before the current position (for `\b`); the fuel is spent one
character (at least) per step. -/
def find_matches : Nat → List Char → Option Char → List Char →
    List (List Char)
  | 0, _, _, _ => []
  | _ + 1, _, _, [] => []
  | fuel + 1, v, prev, c :: rest =>
    if boundary_ok prev && v.isPrefixOf (c :: rest)
        && after_boundary_ok ((c :: rest).drop v.length) then
      (v ++ window200 200 ((c :: rest).drop v.length))
        :: find_matches fuel v
          ((v ++ window200 200 ((c :: rest).drop v.length)).getLast?)
          (((c :: rest).drop v.length).drop
            (window200 200 ((c :: rest).drop v.length)).length)
    else find_matches fuel v (some c) rest

def mandatory_words : List (List Char) :=
  ["required".toList, "mandatory".toList, "must".toList,
   "compulsory".toList, "obligatory".toList]

/-- `VaccineAgent._is_vaccine_required` (lines 229-243): findall the
vaccine name with its 200-character window over the lower-cased text and
look for mandatory language in some match. -/
def is_vaccine_required (text vaccine : String) : Bool :=
  (find_matches (lowerL text.toList).length (lowerL vaccine.toList) none
    (lowerL text.toList)).any
    (fun m => mandatory_words.any (fun w => containsL w m))

/-- The 18 vaccine keywords of `_create_tasks_from_research`
(lines 164-183). -/
def vaccine_keywords : List String :=
  ["Yellow Fever", "Typhoid", "Hepatitis A", "Hepatitis B", "Rabies",
   "Japanese Encephalitis", "Malaria", "Tetanus", "Diphtheria", "Measles",
   "Mumps", "Rubella", "Polio", "COVID-19", "Cholera", "Meningococcal",
   "Tuberculosis", "Influenza"]

/-- The keys of the `found_vaccines` dict (lines 186-213): the keywords
whose lower-cased name occurs in the lower-cased research text. -/
def found_vaccines (text : String) : List String :=
  vaccine_keywords.filter
    (fun v => containsL (lowerL v.toList) (lowerL text.toList))

/-- Python `text.split(sep)` for a single-character separator. -/
def splitOnChar (sep : Char) : List Char → List (List Char)
  | [] => [[]]
  | c :: rest =>
    if c = sep then [] :: splitOnChar sep rest
    else
      match splitOnChar sep rest with
      | [] => [[c]]
      | l :: ls => (c :: l) :: ls

/-- The `context_lines` accumulation of `_extract_vaccine_context`
(lines 250-254): every line mentioning the vaccine contributes itself and
the next two lines. -/
def context_lines (v : List Char) : List (List Char) → List (List Char)
  | [] => []
  | l :: ls =>
    if containsL v (lowerL l) then (l :: ls).take 3 ++ context_lines v ls
    else context_lines v ls

/-- Python `' '.join(lines)`. -/
def joinSpace : List (List Char) → List Char
  | [] => []
  | [l] => l
  | l :: ls => l ++ ' ' :: joinSpace ls

/-- The 300-character context cap (lines 257-259). -/
def truncate300 (cs : List Char) : List Char :=
  if 300 < cs.length then cs.take 300 ++ "...".toList else cs

/-- `VaccineAgent._extract_vaccine_context` (lines 245-261). -/
def extract_vaccine_context (text vaccine : String) : String :=
  if truncate300 (joinSpace (context_lines (lowerL vaccine.toList)
      (splitOnChar '\n' text.toList))) = []
  then "Vaccine mentioned for travel to destination(s)."
  else String.mk (truncate300 (joinSpace (context_lines
    (lowerL vaccine.toList) (splitOnChar '\n' text.toList))))

/-- `re.finditer(rf'\b{re.escape(v)}\b', cs)` start offsets: like
`find_matches` but with no window, resuming after the name itself. -/
def find_positions : Nat → List Char → Option Char → List Char → Nat →
    List Nat
  | 0, _, _, _, _ => []
  | _ + 1, _, _, [], _ => []
  | fuel + 1, v, prev, c :: rest, idx =>
    if boundary_ok prev && v.isPrefixOf (c :: rest)
        && after_boundary_ok ((c :: rest).drop v.length) then
      idx :: find_positions fuel v (some (v.getLastD c))
        ((c :: rest).drop v.length) (idx + v.length)
    else find_positions fuel v (some c) rest (idx + 1)

/-- `destination.split(',')[-1].strip()` (lines 277-278). -/
def dest_name (destination : String) : String :=
  String.mk (trimL ((splitOnChar ',' destination.toList).getLastD []))

/-- `text_lower[max(0, pos-500):min(len(text_lower), pos+500)]`
(line 289). -/
def window1000 (cs : List Char) (pos : Nat) : List Char :=
  (cs.drop (pos - 500)).take ((pos + 500) - (pos - 500))

/-- `VaccineAgent._find_applicable_destinations` (lines 263-296): keep the
destinations whose (lower-cased) country name appears within 500
characters of some occurrence of the vaccine name; fall back to all when
none matched. -/
def find_applicable_destinations (text vaccine : String)
    (all_destinations : List String) : List String :=
  if (all_destinations.foldl
      (fun acc dest =>
        if (find_positions (lowerL text.toList).length
              (lowerL vaccine.toList) none (lowerL text.toList) 0).any
            (fun pos => containsL (lowerL (dest_name dest).toList)
              (window1000 (lowerL text.toList) pos))
            && !(acc.contains dest)
        then acc ++ [dest] else acc) []) = []
  then all_destinations
  else all_destinations.foldl
    (fun acc dest =>
      if (find_positions (lowerL text.toList).length
            (lowerL vaccine.toList) none (lowerL text.toList) 0).any
          (fun pos => containsL (lowerL (dest_name dest).toList)
            (window1000 (lowerL text.toList) pos))
          && !(acc.contains dest)
      then acc ++ [dest] else acc) []

/-- `', '.join` for the destination string (line 319). -/
def joinCommaSpace : List String → String
  | [] => ""
  | [s] => s
  | s :: rest => s ++ ", " ++ joinCommaSpace rest

/-- The destination phrase of `_create_vaccine_task` (lines 313-321). -/
def dest_str : List String → String
  | [] => "your destinations"
  | [d] => d
  | [d1, d2] => d1 ++ " and " ++ d2
  | ds => joinCommaSpace ds.dropLast ++ ", and " ++ ds.getLastD ""

/-- The timing tier (lines 330-334). -/
def timing_sentence (vaccine : String) : String :=
  if containsL "yellow fever".toList (lowerL vaccine.toList)
      || containsL "japanese encephalitis".toList (lowerL vaccine.toList)
  then "Recommended: Get vaccinated at least 4-6 weeks before travel. "
  else "Recommended: Get vaccinated at least 2-4 weeks before travel. "

/-- `VaccineAgent._create_vaccine_task` (lines 298-349); `info["required"]`
is read but not used beyond the comment, so the dict reduces to the
destinations and the context. -/
def create_vaccine_task (vaccine : String) (destinations : List String)
    (context : String) : TripTask :=
  { title := "Get required " ++ vaccine ++ " vaccine"
    description := some (vaccine ++ " vaccine is required for travel to "
      ++ dest_str destinations ++ ". "
      ++ "Consult your doctor or a travel clinic. "
      ++ timing_sentence vaccine
      ++ (if context ≠ "" ∧ context.length < 200
          then "\n\nNote: " ++ context else ""))
    category := "health"
    priority := "high"
    completed := false }

/-- The mentioned vaccines that the required-filter keeps (lines 216-221).
-/
def task_vaccines (text : String) : List String :=
  (found_vaccines text).filter (fun v => is_vaccine_required text v)

/-- `VaccineAgent._create_tasks_from_research` (lines 146-227): one task
per mentioned-and-required vaccine, in keyword order (the per-vaccine
context and destinations are pure, so computing them at task-creation
time is equivalent to storing them in `found_vaccines` first). -/
def create_tasks_from_research (text : String) (dests : List String) :
    List TripTask :=
  (task_vaccines text).map
    (fun v => create_vaccine_task v
      (find_applicable_destinations text v dests)
      (extract_vaccine_context text v))

theorem window200_prefix (n : Nat) :
    ∀ l : List Char, ∃ r, l = window200 n l ++ r := by
  induction n with
  | zero => intro l; exact ⟨l, rfl⟩
  | succ n ih =>
    intro l
    cases l with
    | nil => exact ⟨[], rfl⟩
    | cons c rest =>
      rw [window200]
      by_cases hc : c = '\n'
      · rw [if_pos hc]; exact ⟨c :: rest, rfl⟩
      · rw [if_neg hc]
        obtain ⟨r, hr⟩ := ih rest
        exact ⟨r, by rw [List.cons_append, ← hr]⟩

theorem window200_length (n : Nat) :
    ∀ l : List Char, (window200 n l).length ≤ n := by
  induction n with
  | zero => intro l; simp [window200]
  | succ n ih =>
    intro l
    cases l with
    | nil => simp [window200]
    | cons c rest =>
      rw [window200]
      by_cases hc : c = '\n'
      · rw [if_pos hc]; simp
      · rw [if_neg hc]
        simpa using Nat.succ_le_succ (ih rest)

theorem window200_no_newline (n : Nat) :
    ∀ l : List Char, '\n' ∉ window200 n l := by
  induction n with
  | zero => intro l; simp [window200]
  | succ n ih =>
    intro l
    cases l with
    | nil => simp [window200]
    | cons c rest =>
      rw [window200]
      by_cases hc : c = '\n'
      · rw [if_pos hc]; simp
      · rw [if_neg hc]
        intro hmem
        rcases List.mem_cons.mp hmem with h | h
        · exact hc h.symm
        · exact ih rest h

/-- Every match the scanner reports is the pattern followed by a window of
at most 200 newline-free characters, read off an actual occurrence of the
pattern in the text. -/
theorem find_matches_shape (v : List Char) :
    ∀ (fuel : Nat) (prev : Option Char) (cs m : List Char),
      m ∈ find_matches fuel v prev cs →
      ∃ pre win rest, m = v ++ win ∧ cs = pre ++ v ++ win ++ rest
        ∧ win.length ≤ 200 ∧ '\n' ∉ win := by
  intro fuel
  induction fuel with
  | zero => intro prev cs m h; simp [find_matches] at h
  | succ fuel ih =>
    intro prev cs m h
    cases cs with
    | nil => simp [find_matches] at h
    | cons c rest =>
      rw [find_matches] at h
      split at h
      · rename_i hcond
        simp only [Bool.and_eq_true] at hcond
        obtain ⟨⟨_, hpref⟩, _⟩ := hcond
        obtain ⟨tail, htail⟩ :=
          (List.isPrefixOf_iff_prefix.mp hpref)
        rw [← htail, List.drop_left] at h
        obtain ⟨r, hr⟩ := window200_prefix 200 tail
        rcases List.mem_cons.mp h with hm | hm
        · refine ⟨[], window200 200 tail, r, hm, ?_,
            window200_length 200 tail, window200_no_newline 200 tail⟩
          rw [← htail, List.nil_append, List.append_assoc, ← hr]
        · have hdrop : tail.drop (window200 200 tail).length = r := by
            nth_rewrite 2 [hr]
            rw [List.drop_left]
          rw [hdrop] at hm
          obtain ⟨pre', win', rest', h1, h2, h3, h4⟩ := ih _ _ _ hm
          refine ⟨v ++ window200 200 tail ++ pre', win', rest', h1, ?_,
            h3, h4⟩
          rw [h2] at hr
          rw [← htail]
          conv_lhs => rw [hr]
          simp [List.append_assoc]
      · obtain ⟨pre', win', rest', h1, h2, h3, h4⟩ := ih _ _ _ h
        exact ⟨c :: pre', win', rest', h1, by rw [h2]; rfl, h3, h4⟩

/-- C9: vaccine task extraction creates one task per
mentioned-and-required vaccine and nothing else; a vaccine the classifier
does not mark required never reaches the task list; and whenever the
classifier marks a vaccine required, some actual occurrence of the
vaccine name in the lower-cased text is followed by a window of at most
200 newline-free characters in which a mandatory-language keyword
occurs. -/
theorem C9_only_required_vaccines_become_tasks (text : String)
    (dests : List String) :
    create_tasks_from_research text dests
      = (task_vaccines text).map (fun v => create_vaccine_task v
          (find_applicable_destinations text v dests)
          (extract_vaccine_context text v))
    ∧ (∀ v ∈ task_vaccines text, is_vaccine_required text v = true)
    ∧ (∀ v, is_vaccine_required text v = false → v ∉ task_vaccines text)
    ∧ (∀ v, is_vaccine_required text v = true →
        ∃ m win pre rest,
          m ∈ find_matches (lowerL text.toList).length (lowerL v.toList)
            none (lowerL text.toList)
          ∧ (∃ w ∈ mandatory_words, containsL w m = true)
          ∧ m = lowerL v.toList ++ win
          ∧ lowerL text.toList = pre ++ lowerL v.toList ++ win ++ rest
          ∧ win.length ≤ 200 ∧ '\n' ∉ win) := by
  refine ⟨rfl, ?_, ?_, ?_⟩
  · intro v hv
    simp only [task_vaccines, List.mem_filter] at hv
    exact hv.2
  · intro v hfalse hv
    simp only [task_vaccines, List.mem_filter] at hv
    rw [hfalse] at hv
    exact Bool.false_ne_true hv.2
  · intro v hreq
    rw [is_vaccine_required, List.any_eq_true] at hreq
    obtain ⟨m, hm, hkw⟩ := hreq
    obtain ⟨pre, win, rest, h1, h2, h3, h4⟩ :=
      find_matches_shape (lowerL v.toList) _ _ _ _ hm
    simp only [List.any_eq_true] at hkw
    obtain ⟨w, hw, hcw⟩ := hkw
    exact ⟨m, win, pre, rest, hm, ⟨w, hw, hcw⟩, h1, h2, h3, h4⟩

theorem C9_only_required_vaccines_become_tasks_witness :
    create_tasks_from_research
        "Yellow Fever vaccine is required for entry. Typhoid is recommended."
        ["Manaus, Brazil"]
      = (task_vaccines
          "Yellow Fever vaccine is required for entry. Typhoid is recommended.").map
          (fun v => create_vaccine_task v
            (find_applicable_destinations
              "Yellow Fever vaccine is required for entry. Typhoid is recommended."
              v ["Manaus, Brazil"])
            (extract_vaccine_context
              "Yellow Fever vaccine is required for entry. Typhoid is recommended."
              v))
    ∧ (∀ v ∈ task_vaccines
          "Yellow Fever vaccine is required for entry. Typhoid is recommended.",
        is_vaccine_required
          "Yellow Fever vaccine is required for entry. Typhoid is recommended."
          v = true)
    ∧ (∀ v, is_vaccine_required
          "Yellow Fever vaccine is required for entry. Typhoid is recommended."
          v = false →
        v ∉ task_vaccines
          "Yellow Fever vaccine is required for entry. Typhoid is recommended.")
    ∧ (∀ v, is_vaccine_required
          "Yellow Fever vaccine is required for entry. Typhoid is recommended."
          v = true →
        ∃ m win pre rest,
          m ∈ find_matches
            (lowerL ("Yellow Fever vaccine is required for entry. Typhoid is recommended.").toList).length
            (lowerL v.toList) none
            (lowerL ("Yellow Fever vaccine is required for entry. Typhoid is recommended.").toList)
          ∧ (∃ w ∈ mandatory_words, containsL w m = true)
          ∧ m = lowerL v.toList ++ win
          ∧ lowerL ("Yellow Fever vaccine is required for entry. Typhoid is recommended.").toList
              = pre ++ lowerL v.toList ++ win ++ rest
          ∧ win.length ≤ 200 ∧ '\n' ∉ win) :=
  C9_only_required_vaccines_become_tasks
    "Yellow Fever vaccine is required for entry. Typhoid is recommended."
    ["Manaus, Brazil"]

/-! ## C8: response extraction across fenced / bare / prose-embedded JSON -/

/-- `_get_default_fallback_tasks` (task_agent.py lines 380-404). -/
def default_fallback_tasks : List JObj :=
  [ [("title", .str "Book international flights"),
     ("description",
       .str "Book flights for your trip. Recommended: 4 weeks before trip"),
     ("category", .str "general"),
     ("priority", .str "high"),
     ("completed", .bool false)],
    [("title", .str "Book accommodation at destination"),
     ("description",
       .str "Reserve hotels or other lodging. Recommended: 3 weeks before trip"),
     ("category", .str "accommodation"),
     ("priority", .str "high"),
     ("completed", .bool false)],
    [("title", .str "Get travel insurance"),
     ("description",
       .str "Purchase travel insurance. Recommended: 3 weeks before trip"),
     ("category", .str "general"),
     ("priority", .str "high"),
     ("completed", .bool false)] ]

/-- The per-element validation of `_parse_task_response` (lines 288-296):
keep dicts having both `title` and `category`, rebuilt with defaults. -/
def valid_task : Json → Option JObj
  | .obj fields =>
    if jhas fields "title" && jhas fields "category" then
      some [("title", (jget fields "title").getD (.str "")),
            ("description", (jget fields "description").getD .null),
            ("category", (jget fields "category").getD (.str "general")),
            ("priority", (jget fields "priority").getD (.str "medium")),
            ("completed", .bool false)]
    else none
  | _ => none

/-- What `_parse_task_response` does with the decoded JSON value: a list
is validated element-wise (an empty validated list falls back to the
defaults); iterating a dict or a string yields no dict elements, hence the
defaults; any other value raises an uncaught `TypeError` (only
`json.JSONDecodeError` is caught, line 305). -/
def tasks_of_json : Json → Except String (List JObj)
  | .arr elems =>
    if (elems.filterMap valid_task).isEmpty then .ok default_fallback_tasks
    else .ok (elems.filterMap valid_task)
  | .obj _ => .ok default_fallback_tasks
  | .str _ => .ok default_fallback_tasks
  | _ => .error "TypeError: not iterable"

def bracket_close : Option (List Char × List Char) → Option (List Char)
  | none => none
  | some (_, revBefore) => some ('[' :: (revBefore.reverse ++ [']']))

def bracket_open : Option (List Char × List Char) → Option (List Char)
  | none => none
  | some (_, after) => bracket_close (breakOn [']'] after.reverse)

/-- `re.search(r'\[[\s\S]*\]', s)`: the substring from the first `[` to
the last `]` when the last `]` lies after the first `[`, else no match. -/
def bracketSlice (cs : List Char) : Option (List Char) :=
  bracket_open (breakOn ['['] cs)

def parse_task_of_json : Option Json → Except String (List JObj)
  | none => .ok default_fallback_tasks
  | some j => tasks_of_json j

def parse_task_of_slice : Option (List Char) → Except String (List JObj)
  | none => .ok default_fallback_tasks
  | some slice => parse_task_of_json (jsonParse slice)

/-- `TaskAgent._parse_task_response` (lines 278-307): slice from the
first `[` to the last `]` up front, decode, validate; a missing slice or
a decode error returns the default fallback tasks. -/
def parse_task_response (response_text : String) :
    Except String (List JObj) :=
  parse_task_of_slice (bracketSlice response_text.toList)

/-- The regex slice recovers exactly the bracketed payload whenever the
surrounding prose opens no bracket before it and closes none after it. -/
theorem bracketSlice_extract (p1 mid p2 : List Char)
    (h1 : '[' ∉ p1) (h2 : ']' ∉ p2) :
    bracketSlice (p1 ++ ('[' :: (mid ++ [']'])) ++ p2)
      = some ('[' :: (mid ++ [']'])) := by
  have hb1 : breakOn ['['] (p1 ++ ('[' :: (mid ++ [']'])) ++ p2)
      = some (p1, (mid ++ [']']) ++ p2) := by
    rw [List.append_assoc,
      breakOn_append_left '[' [] p1 _ h1,
      show ('[' :: (mid ++ [']'])) ++ p2 = ['['] ++ ((mid ++ [']']) ++ p2)
        from by simp,
      breakOn_at_start ['['] _ (by simp)]
    simp
  have hb2 : breakOn [']'] (((mid ++ [']']) ++ p2).reverse)
      = some (p2.reverse, mid.reverse) := by
    rw [List.reverse_append, List.reverse_append, List.reverse_singleton,
      breakOn_append_left ']' [] p2.reverse _ (by simpa using h2),
      show [']'] ++ mid.reverse = [']'] ++ mid.reverse from rfl,
      breakOn_at_start [']'] _ (by simp)]
    simp
  rw [bracketSlice, hb1, bracket_open, hb2, bracket_close,
    List.reverse_reverse]

/-- Stripping a well-formed ```json fence around a backtick-free body
yields the trimmed body. -/
theorem strip_fences_fenced (body : List Char) (hb : '\x60' ∉ body) :
    strip_fences ("```json\n".toList ++ body ++ "\n```".toList)
      = trimL body := by
  have htrim : trimL ("```json\n".toList ++ body ++ "\n```".toList)
      = "```json\n".toList ++ body ++ "\n```".toList := by
    apply trimL_eq_self
    · intro c hc
      have : ("```json\n".toList ++ body ++ "\n```".toList).head?
          = some '\x60' := rfl
      rw [this] at hc
      injection hc with hc
      subst hc
      decide
    · intro c hc
      have hsplit : "```json\n".toList ++ body ++ "\n```".toList
          = ("```json\n".toList ++ body ++ "\n``".toList) ++ ['\x60'] := by
        simp
      rw [hsplit, ← List.head?_reverse, List.reverse_append] at hc
      simp only [List.reverse_cons, List.reverse_nil, List.nil_append,
        List.singleton_append, List.head?_cons] at hc
      injection hc with hc
      subst hc
      decide
  have hbrk : breakOn fence_json_toks
      ("```json\n".toList ++ body ++ "\n```".toList)
      = some ([], ['\n'] ++ body ++ "\n```".toList) := by
    rw [show "```json\n".toList ++ body ++ "\n```".toList
        = fence_json_toks ++ (['\n'] ++ body ++ "\n```".toList) from by simp
          [fence_json_toks],
      breakOn_at_start fence_json_toks _ (by decide)]
  have hbrk2 : breakOn fence_toks (['\n'] ++ body ++ "\n```".toList)
      = some ((['\n'] ++ body ++ ['\n']) ++ [], []) := by
    rw [show ['\n'] ++ body ++ "\n```".toList
        = (['\n'] ++ body ++ ['\n']) ++ (fence_toks ++ []) from by simp
          [fence_toks],
      show fence_toks = '\x60' :: "``".toList from rfl,
      breakOn_append_left '\x60' "``".toList _ _ (by
        intro hmem
        rcases List.mem_append.mp hmem with hmem | hmem
        · rcases List.mem_append.mp hmem with hmem | hmem
          · simp at hmem
          · exact hb hmem
        · simp at hmem),
      show ('\x60' :: "``".toList) = fence_toks from rfl,
      breakOn_at_start fence_toks _ (by decide)]
    rfl
  rw [strip_fences, htrim, containsL, hbrk]
  simp only [Option.isSome_some, if_true]
  rw [takeBefore, hbrk2]
  simp only [List.append_nil]
  rw [show ['\n'] ++ body ++ ['\n'] = '\n' :: (body ++ ['\n']) from by simp,
    trimL_cons_of_ws '\n' _ (by decide),
    trimL_append_of_ws body '\n' (by decide)]

/-- A backtick-free response is only trimmed. -/
theorem strip_fences_nofence (body : List Char) (hb : '\x60' ∉ body) :
    strip_fences body = trimL body := by
  have h1 : '\x60' ∉ trimL body := fun h => hb (mem_trimL body _ h)
  have hbrk1 : breakOn fence_json_toks (trimL body) = none := by
    rw [show fence_json_toks = '\x60' :: "``json".toList from rfl]
    exact breakOn_none_of_head_notMem _ _ _ h1
  have hbrk2 : breakOn fence_toks (trimL body) = none := by
    rw [show fence_toks = '\x60' :: "``".toList from rfl]
    exact breakOn_none_of_head_notMem _ _ _ h1
  simp only [strip_fences, containsL, hbrk1, hbrk2, Option.isSome_none,
    Bool.false_eq_true, if_false]

/-- C8 (corrected): the task extractor's up-front bracket slice makes the
fenced, bare, and prose-embedded renderings of one JSON array
indistinguishable; the itinerary extractor strips fences (fenced = bare)
but has no bracket-slice retry, so prose-embedding is NOT invariant for
it (see the counterexample). -/
theorem C8_extraction_invariance (mid p1 p2 body : List Char) (trip : Trip)
    (hp1 : '[' ∉ p1) (hp2 : ']' ∉ p2) (hb : '\x60' ∉ body) :
    parse_task_response (String.mk (p1 ++ ('[' :: (mid ++ [']'])) ++ p2))
      = parse_task_response (String.mk ('[' :: (mid ++ [']'])))
    ∧ parse_task_response (String.mk ("```json\n".toList
        ++ ('[' :: (mid ++ [']'])) ++ "\n```".toList))
      = parse_task_response (String.mk ('[' :: (mid ++ [']'])))
    ∧ parse_itinerary_response (String.mk ("```json\n".toList ++ body
        ++ "\n```".toList)) trip
      = parse_itinerary_response (String.mk body) trip := by
  have hbare : bracketSlice ('[' :: (mid ++ [']']))
      = some ('[' :: (mid ++ [']'])) := by
    have h := bracketSlice_extract [] mid [] (by simp) (by simp)
    simpa using h
  refine ⟨?_, ?_, ?_⟩
  · show parse_task_of_slice
        (bracketSlice (p1 ++ ('[' :: (mid ++ [']'])) ++ p2))
      = parse_task_of_slice (bracketSlice ('[' :: (mid ++ [']'])))
    rw [bracketSlice_extract p1 mid p2 hp1 hp2, hbare]
  · show parse_task_of_slice (bracketSlice ("```json\n".toList
        ++ ('[' :: (mid ++ [']'])) ++ "\n```".toList))
      = parse_task_of_slice (bracketSlice ('[' :: (mid ++ [']'])))
    rw [bracketSlice_extract "```json\n".toList mid "\n```".toList
      (by decide) (by decide), hbare]
  · show parse_itinerary_of_json trip (jsonParse
        (strip_fences ("```json\n".toList ++ body ++ "\n```".toList)))
      = parse_itinerary_of_json trip (jsonParse (strip_fences body))
    rw [strip_fences_fenced body hb, strip_fences_nofence body hb]

def c8_trip : Trip :=
  { destinations := ["Kyoto, Japan"]
    start_day := 0
    end_day := 1
    start_date := "2025-05-01" }

/-- Counterexample to C8 as stated: the itinerary extractor raises on the
very JSON array it accepts bare once the array is embedded in prose —
there is no first-to-last-bracket re-parse in `_parse_itinerary_response`
(its `except` clause re-raises). -/
theorem C8_counterexample :
    parse_itinerary_response "[]" c8_trip = .ok []
    ∧ parse_itinerary_response "Here is the itinerary: [] Enjoy!" c8_trip
        = .error "json.JSONDecodeError"
    ∧ (Except.ok ([] : List JObj)
        ≠ (Except.error "json.JSONDecodeError"
            : Except String (List JObj))) :=
  ⟨rfl, rfl, fun h => Except.noConfusion h⟩

theorem C8_extraction_invariance_witness :
    ('[' ∉ "Sure! ".toList) ∧ (']' ∉ " Done.".toList)
    ∧ ('\x60' ∉ "[]".toList)
    ∧ (parse_task_response (String.mk ("Sure! ".toList
          ++ ('[' :: ("1".toList ++ [']'])) ++ " Done.".toList))
        = parse_task_response (String.mk ('[' :: ("1".toList ++ [']'])))
      ∧ parse_task_response (String.mk ("```json\n".toList
          ++ ('[' :: ("1".toList ++ [']'])) ++ "\n```".toList))
        = parse_task_response (String.mk ('[' :: ("1".toList ++ [']'])))
      ∧ parse_itinerary_response (String.mk ("```json\n".toList
          ++ "[]".toList ++ "\n```".toList)) c8_trip
        = parse_itinerary_response (String.mk "[]".toList) c8_trip) :=
  ⟨by decide, by decide, by decide,
    C8_extraction_invariance "1".toList "Sure! ".toList " Done.".toList
      "[]".toList c8_trip (by decide) (by decide) (by decide)⟩

/-! ## C6: `AccommodationAgent._parse_recommendations` -/

/-- The partial dict `_extract_accommodation_from_text` returns (each
field set only when some pattern matched). -/
structure AccomItem where
  name : Option String
  itype : Option String
  price_per_night : Option Int
  location : Option String
  description : Option String
  why_fits : Option String
  range_category : Option String

/-- The environment of one parse: the regex section split of the research
text (line 295) and the per-section extraction oracle
(`_extract_accommodation_from_text`, lines 363-478, whose regex matching
is abstracted). -/
structure AccomEnv where
  sections : List (List Char)
  extract : List Char → Option AccomItem

/-- The section loop (lines 299-306): strip, drop short sections, collect
extraction results. -/
def parsed_raw (env : AccomEnv) : List AccomItem :=
  env.sections.filterMap (fun s =>
    if (trimL s).length < 50 then none else env.extract (trimL s))

/-- Python `int(x)` on a float/rational: truncation toward zero. -/
def int_trunc (q : ℚ) : Int := if q < 0 then ⌈q⌉ else ⌊q⌋

/-- `categories[(index - 1) % 3]` when `range_type == "all"`, else the
requested range (lines 524-529). -/
def fallback_category (range_type : String) (index : Nat) : String :=
  if range_type = "all"
  then ["budget", "mid-range", "luxury"].getD ((index - 1) % 3) "budget"
  else range_type

/-- `_create_fallback_recommendation` (lines 497-538); the float
multipliers 0.5 and 1.8 are taken as exact rationals. -/
def fallback_rec (dest : String) (index : Nat) (budget : ℚ)
    (range_type : String) : AccomItem :=
  if fallback_category range_type index = "budget" then
    { name := some (dest ++ " Budget Hostel")
      itype := some "hostel"
      price_per_night := some (max (int_trunc (budget * (1/2))) 20)
      location := some dest
      description := some
        "A clean and comfortable budget accommodation option with basic amenities."
      why_fits := some ("This " ++ fallback_category range_type index
        ++ " option fits within the trip budget and offers good value.")
      range_category := some (fallback_category range_type index) }
  else if fallback_category range_type index = "mid-range" then
    { name := some (dest ++ " Central Hotel")
      itype := some "hotel"
      price_per_night := some (max (int_trunc budget) 50)
      location := some dest
      description := some
        "A well-located hotel with good amenities and comfortable rooms."
      why_fits := some ("This " ++ fallback_category range_type index
        ++ " option fits within the trip budget and offers good value.")
      range_category := some (fallback_category range_type index) }
  else
    { name := some (dest ++ " Luxury Resort")
      itype := some "hotel"
      price_per_night := some (max (int_trunc (budget * (9/5))) 100)
      location := some dest
      description := some
        "An upscale property offering premium amenities and exceptional service."
      why_fits := some ("This " ++ fallback_category range_type index
        ++ " option fits within the trip budget and offers good value.")
      range_category := some (fallback_category range_type index) }

/-- The `while len(parsed_items) < 3` padding loop (lines 313-321); three
rounds of fuel suffice since each round appends one item. -/
def pad_while (dest : String) (budget : ℚ) (range_type : String) :
    Nat → List AccomItem → List AccomItem
  | 0, items => items
  | fuel + 1, items =>
    if items.length < 3 then
      pad_while dest budget range_type fuel
        (items ++ [fallback_rec dest (items.length + 1) budget range_type])
    else items

/-- The cardinality fix-up (lines 309-331): truncate to 3, pad to 3, or
build all three fallbacks. -/
def pad_to_three (dest : String) (budget : ℚ) (range_type : String)
    (items : List AccomItem) : List AccomItem :=
  if 3 ≤ items.length then items.take 3
  else if 0 < items.length then pad_while dest budget range_type 3 items
  else [fallback_rec dest 1 budget range_type,
        fallback_rec dest 2 budget range_type,
        fallback_rec dest 3 budget range_type]

/-- `_determine_range_category` (lines 485-496); 0.6 and 1.2 as exact
rationals. -/
def determine_range_category (price budget : ℚ) (requested : String) :
    String :=
  if requested ≠ "all" then requested
  else if price ≤ budget * (3/5) then "budget"
  else if price ≤ budget * (6/5) then "mid-range"
  else "luxury"

/-- One final recommendation dict (lines 334-356). -/
structure Recommendation where
  destination : String
  name : String
  rtype : String
  price_per_night : Int
  currency : String
  total_cost : Int
  nights_count : Int
  location : String
  description : String
  why_fits : String
  range_category : String

/-- The conversion of the `i`-th parsed item (lines 334-356): `get` with
defaults; a missing `range_category` falls back to
`_determine_range_category`. -/
def to_recommendation (dest : String) (nights : Int) (budget : ℚ)
    (currency range_type : String) (i : Nat) (item : AccomItem) :
    Recommendation :=
  { destination := dest
    name := item.name.getD ("Accommodation Option " ++ toString (i + 1))
    rtype := item.itype.getD "hotel"
    price_per_night := item.price_per_night.getD 0
    currency := currency
    total_cost := item.price_per_night.getD 0 * nights
    nights_count := nights
    location := item.location.getD dest
    description := item.description.getD ""
    why_fits := item.why_fits.getD ""
    range_category := item.range_category.getD
      (determine_range_category ((item.price_per_night.getD 0 : Int) : ℚ)
        budget range_type) }

/-- The `enumerate` conversion loop (lines 334-358). -/
def accom_rec_loop (dest : String) (nights : Int) (budget : ℚ)
    (currency range_type : String) : Nat → List AccomItem →
    List Recommendation
  | _, [] => []
  | i, item :: rest =>
    to_recommendation dest nights budget currency range_type i item
      :: accom_rec_loop dest nights budget currency range_type (i + 1) rest

/-- `AccommodationAgent._parse_recommendations` (lines 266-360). -/
def parse_recommendations (env : AccomEnv) (dest : String) (nights : Int)
    (budget : ℚ) (currency range_type : String) : List Recommendation :=
  accom_rec_loop dest nights budget currency range_type 0
    (pad_to_three dest budget range_type (parsed_raw env))

theorem accom_rec_loop_length (dest : String) (nights : Int) (budget : ℚ)
    (currency range_type : String) :
    ∀ (i : Nat) (items : List AccomItem),
      (accom_rec_loop dest nights budget currency range_type i
        items).length = items.length := by
  intro i items
  induction items generalizing i with
  | nil => rfl
  | cons item rest ih =>
    rw [accom_rec_loop, List.length_cons, List.length_cons, ih]

theorem pad_while_length (dest : String) (budget : ℚ) (rt : String) :
    ∀ (fuel : Nat) (items : List AccomItem),
      items.length ≤ 3 → 3 ≤ fuel + items.length →
      (pad_while dest budget rt fuel items).length = 3 := by
  intro fuel
  induction fuel with
  | zero =>
    intro items h1 h2
    rw [pad_while]
    omega
  | succ fuel ih =>
    intro items h1 h2
    rw [pad_while]
    by_cases hlt : items.length < 3
    · rw [if_pos hlt]
      apply ih
      · rw [List.length_append]
        simp
        omega
      · rw [List.length_append]
        simp
        omega
    · rw [if_neg hlt]
      omega

theorem pad_to_three_length (dest : String) (budget : ℚ) (rt : String)
    (items : List AccomItem) :
    (pad_to_three dest budget rt items).length = 3 := by
  rw [pad_to_three]
  by_cases h3 : 3 ≤ items.length
  · rw [if_pos h3, List.length_take]
    omega
  · rw [if_neg h3]
    by_cases h0 : 0 < items.length
    · rw [if_pos h0]
      apply pad_while_length
      · omega
      · omega
    · rw [if_neg h0]
      rfl

theorem fallback_rec_fields (dest : String) (idx : Nat) (budget : ℚ)
    (rt : String) :
    (∃ p, (fallback_rec dest idx budget rt).price_per_night = some p
      ∧ 0 ≤ p)
    ∧ (fallback_rec dest idx budget rt).range_category
        = some (fallback_category rt idx) := by
  rw [fallback_rec]
  by_cases h1 : fallback_category rt idx = "budget"
  · rw [if_pos h1]
    exact ⟨⟨_, rfl, le_trans (by norm_num) (le_max_right _ 20)⟩, rfl⟩
  · rw [if_neg h1]
    by_cases h2 : fallback_category rt idx = "mid-range"
    · rw [if_pos h2]
      exact ⟨⟨_, rfl, le_trans (by norm_num) (le_max_right _ 50)⟩, rfl⟩
    · rw [if_neg h2]
      exact ⟨⟨_, rfl, le_trans (by norm_num) (le_max_right _ 100)⟩, rfl⟩

theorem fallback_category_mem (rt : String) (idx : Nat)
    (hidx : idx = 1 ∨ idx = 2 ∨ idx = 3)
    (hr : rt = "all" ∨ rt = "budget" ∨ rt = "mid-range" ∨ rt = "luxury") :
    fallback_category rt idx = "budget"
    ∨ fallback_category rt idx = "mid-range"
    ∨ fallback_category rt idx = "luxury" := by
  rcases hidx with hi | hi | hi <;> subst hi <;>
    rcases hr with h | h | h | h <;> subst h <;> decide

/-- C6: accommodation extraction always returns exactly 3 recommendation
records — the first 3 when extraction found at least 3, the fallbacks
where it fell short — and on irrecoverable garbage (no section yields an
extraction) every record carries a non-negative price_per_night and a
range_category in {budget, mid-range, luxury} (for the documented
range_type domain). -/
theorem C6_accommodation_exactly_three (env : AccomEnv) (dest : String)
    (nights : Int) (budget : ℚ) (currency range_type : String)
    (hr : range_type = "all" ∨ range_type = "budget"
      ∨ range_type = "mid-range" ∨ range_type = "luxury") :
    (parse_recommendations env dest nights budget currency
      range_type).length = 3
    ∧ (3 ≤ (parsed_raw env).length →
        parse_recommendations env dest nights budget currency range_type
          = accom_rec_loop dest nights budget currency range_type 0
              ((parsed_raw env).take 3))
    ∧ ((∀ s, env.extract s = none) →
        ∀ r ∈ parse_recommendations env dest nights budget currency
          range_type,
          0 ≤ r.price_per_night
          ∧ (r.range_category = "budget" ∨ r.range_category = "mid-range"
             ∨ r.range_category = "luxury")) := by
  refine ⟨?_, ?_, ?_⟩
  · rw [parse_recommendations, accom_rec_loop_length, pad_to_three_length]
  · intro h3
    rw [parse_recommendations, pad_to_three, if_pos h3]
  · intro hext r hmem
    have hraw : parsed_raw env = [] := by
      rw [parsed_raw, List.filterMap_eq_nil_iff]
      intro s hs
      split
      · rfl
      · exact hext _
    rw [parse_recommendations, hraw] at hmem
    rw [show pad_to_three dest budget range_type [] =
        [fallback_rec dest 1 budget range_type,
         fallback_rec dest 2 budget range_type,
         fallback_rec dest 3 budget range_type] from by
      rw [pad_to_three]
      simp] at hmem
    rw [accom_rec_loop, accom_rec_loop, accom_rec_loop, accom_rec_loop]
      at hmem
    have hone : ∀ (i : Nat) (idx : Nat), idx = 1 ∨ idx = 2 ∨ idx = 3 →
        0 ≤ (to_recommendation dest nights budget currency range_type i
          (fallback_rec dest idx budget range_type)).price_per_night
        ∧ ((to_recommendation dest nights budget currency range_type i
            (fallback_rec dest idx budget range_type)).range_category
              = "budget"
          ∨ (to_recommendation dest nights budget currency range_type i
            (fallback_rec dest idx budget range_type)).range_category
              = "mid-range"
          ∨ (to_recommendation dest nights budget currency range_type i
            (fallback_rec dest idx budget range_type)).range_category
              = "luxury") := by
      intro i idx hidx
      obtain ⟨⟨p, hp, hp0⟩, hcat⟩ := fallback_rec_fields dest idx budget
        range_type
      constructor
      · show 0 ≤ (fallback_rec dest idx budget
          range_type).price_per_night.getD 0
        rw [hp]
        exact hp0
      · have hrc : (to_recommendation dest nights budget currency
            range_type i (fallback_rec dest idx budget
              range_type)).range_category
            = fallback_category range_type idx := by
          show ((fallback_rec dest idx budget
            range_type).range_category.getD _) = _
          rw [hcat]
          rfl
        rw [hrc]
        exact fallback_category_mem range_type idx hidx hr
    simp only [List.mem_cons, List.not_mem_nil, or_false] at hmem
    rcases hmem with hmem | hmem | hmem
    · subst hmem; exact hone 0 1 (by omega)
    · subst hmem; exact hone 1 2 (by omega)
    · subst hmem; exact hone 2 3 (by omega)

def c6_env : AccomEnv :=
  { sections := ["%%% irrecoverable garbage that matches nothing %%%".toList]
    extract := fun _ => none }

theorem C6_accommodation_exactly_three_witness :
    (parse_recommendations c6_env "Lisbon" 4 80 "USD" "all").length = 3
    ∧ (3 ≤ (parsed_raw c6_env).length →
        parse_recommendations c6_env "Lisbon" 4 80 "USD" "all"
          = accom_rec_loop "Lisbon" 4 80 "USD" "all" 0
              ((parsed_raw c6_env).take 3))
    ∧ ((∀ s, c6_env.extract s = none) →
        ∀ r ∈ parse_recommendations c6_env "Lisbon" 4 80 "USD" "all",
          0 ≤ r.price_per_night
          ∧ (r.range_category = "budget" ∨ r.range_category = "mid-range"
             ∨ r.range_category = "luxury")) :=
  C6_accommodation_exactly_three c6_env "Lisbon" 4 80 "USD" "all"
    (Or.inl rfl)
